import Mathlib

/-
  Shallow embedding of the ts_raytracer rendering core.

  Sources embedded:
  - src/src/core/Raytracer.ts        (sequential render path, namespace `Seq`)
  - src/unnamed/part_000             (Vector3 kernel + WorkerRaytracer, namespace `Wk`)
  - src/src/types/scene.types.ts     (data model)

  Modelling conventions:
  - JavaScript numbers are modelled as rationals.  The transcendental /
    partial host functions (Math.sqrt, Math.tan, Math.pow, Math.PI) are
    abstracted as the fields of `MathFns`; every embedded definition is
    parametric in them, exactly as both source files call the same
    `Math.*` functions.  Witnesses instantiate them with `ratMath`,
    which agrees with IEEE `Math.sqrt` on perfect squares.
  - Values that the source can drive to IEEE Infinity or NaN (the
    `Infinity` no-hit sentinel, the box slab parameters, divisions by
    zero in the slab/normal code) are modelled by `XQ`, rationals
    extended with +inf, -inf and NaN, with IEEE comparison semantics
    (every comparison involving NaN is false; Math.min/max propagate
    NaN).  The negative-zero distinction of IEEE is not representable
    in the rationals; the embedding uses 1/0 = +inf (JS `1/+0`).
-/

namespace Rt

/-- Abstraction of the host math library: both source files call
Math.sqrt, Math.tan, Math.pow and read Math.PI; every embedded
function is parametric in these, so theorems quantify over them. -/
structure MathFns where
  sqrt : ℚ → ℚ
  tan : ℚ → ℚ
  pow : ℚ → ℚ → ℚ
  pi : ℚ

/-- Math.sign of the source: -1, 0 or 1 by the sign of the argument. -/
def qsign (q : ℚ) : ℚ :=
  if q < 0 then -1 else if 0 < q then 1 else 0

/-- Round to the nearest integer, ties to even: the rounding a
Uint8ClampedArray store performs on an in-range value. -/
def roundHalfEven (q : ℚ) : ℤ :=
  let f := ⌊q⌋
  let r := q - f
  if r < 1/2 then f else if 1/2 < r then f + 1 else if Even f then f else f + 1

/-- The byte stored for one color channel: the source computes
`Math.min(255, Math.max(0, c * 255))` and assigns it to a
Uint8ClampedArray cell, which rounds the in-range value to the
nearest integer (ties to even). -/
def clampByte (c : ℚ) : ℕ :=
  (roundHalfEven (min 255 (max 0 (c * 255)))).toNat

/-- Rationals extended with the IEEE special values the source can
produce: +Infinity (the no-hit sentinel and 1/0), -Infinity, NaN. -/
inductive XQ where
  | nan : XQ
  | ninf : XQ
  | pinf : XQ
  | fin (q : ℚ) : XQ
deriving DecidableEq

/-- IEEE `<` on extended values: any comparison with NaN is false. -/
def xlt : XQ → XQ → Bool
  | XQ.nan, _ => false
  | _, XQ.nan => false
  | XQ.ninf, XQ.ninf => false
  | XQ.ninf, XQ.pinf => true
  | XQ.ninf, XQ.fin _ => true
  | XQ.pinf, _ => false
  | XQ.fin _, XQ.ninf => false
  | XQ.fin _, XQ.pinf => true
  | XQ.fin a, XQ.fin b => decide (a < b)

/-- Math.min on extended values: NaN-propagating. -/
def xmin : XQ → XQ → XQ
  | XQ.nan, _ => XQ.nan
  | _, XQ.nan => XQ.nan
  | XQ.ninf, _ => XQ.ninf
  | _, XQ.ninf => XQ.ninf
  | XQ.pinf, b => b
  | a, XQ.pinf => a
  | XQ.fin a, XQ.fin b => XQ.fin (min a b)

/-- Math.max on extended values: NaN-propagating. -/
def xmax : XQ → XQ → XQ
  | XQ.nan, _ => XQ.nan
  | _, XQ.nan => XQ.nan
  | XQ.pinf, _ => XQ.pinf
  | _, XQ.pinf => XQ.pinf
  | XQ.ninf, b => b
  | a, XQ.ninf => a
  | XQ.fin a, XQ.fin b => XQ.fin (max a b)

/-- IEEE division of rationals yielding an extended value:
a/0 is +inf, -inf or NaN by the sign of a (JS division by +0). -/
def xdiv (a b : ℚ) : XQ :=
  if b = 0 then (if a = 0 then XQ.nan else if 0 < a then XQ.pinf else XQ.ninf)
  else XQ.fin (a / b)

/-- IEEE product of a finite rational with an extended value:
0 * (±inf) is NaN. -/
def xmul (a : ℚ) : XQ → XQ
  | XQ.nan => XQ.nan
  | XQ.pinf => if a = 0 then XQ.nan else if 0 < a then XQ.pinf else XQ.ninf
  | XQ.ninf => if a = 0 then XQ.nan else if 0 < a then XQ.ninf else XQ.pinf
  | XQ.fin q => XQ.fin (a * q)

/-- Math.abs on extended values. -/
def xabs : XQ → XQ
  | XQ.nan => XQ.nan
  | XQ.ninf => XQ.pinf
  | XQ.pinf => XQ.pinf
  | XQ.fin q => XQ.fin |q|

/-- The finite part of an extended value (placeholder 0 otherwise;
used only to build the coordinate fields of degenerate box hits,
whose non-finite distance keeps them from ever being selected). -/
def XQ.toQ : XQ → ℚ
  | XQ.fin q => q
  | _ => 0

/-- Vec3 of scene.types.ts / the Vector3 class (the worker file holds
a textually identical copy of the class; one embedding serves both). -/
structure Vec3 where
  x : ℚ
  y : ℚ
  z : ℚ
deriving DecidableEq

def Vec3.add (a b : Vec3) : Vec3 := ⟨a.x + b.x, a.y + b.y, a.z + b.z⟩

def Vec3.subtract (a b : Vec3) : Vec3 := ⟨a.x - b.x, a.y - b.y, a.z - b.z⟩

def Vec3.multiply (a : Vec3) (s : ℚ) : Vec3 := ⟨a.x * s, a.y * s, a.z * s⟩

def Vec3.dot (a b : Vec3) : ℚ := a.x * b.x + a.y * b.y + a.z * b.z

def Vec3.cross (a b : Vec3) : Vec3 :=
  ⟨a.y * b.z - a.z * b.y, a.z * b.x - a.x * b.z, a.x * b.y - a.y * b.x⟩

/-- Vector3.length: Math.sqrt of the sum of squared components. -/
def Vec3.length (M : MathFns) (v : Vec3) : ℚ :=
  M.sqrt (v.x * v.x + v.y * v.y + v.z * v.z)

/-- Vector3.normalize: the zero-length guard returns the zero vector. -/
def Vec3.normalize (M : MathFns) (v : Vec3) : Vec3 :=
  let length := v.length M
  if length = 0 then ⟨0, 0, 0⟩ else ⟨v.x / length, v.y / length, v.z / length⟩

def Vec3.reflect (v normal : Vec3) : Vec3 :=
  v.subtract (normal.multiply (2 * v.dot normal))

structure Color where
  r : ℚ
  g : ℚ
  b : ℚ
deriving DecidableEq

structure Material where
  color : Color
  reflectivity : ℚ
  shininess : ℚ
deriving DecidableEq

structure Sphere where
  center : Vec3
  radius : ℚ
  material : Material
deriving DecidableEq

structure Plane where
  point : Vec3
  normal : Vec3
  material : Material
deriving DecidableEq

structure Triangle where
  v0 : Vec3
  v1 : Vec3
  v2 : Vec3
  material : Material
deriving DecidableEq

structure Box where
  min : Vec3
  max : Vec3
  material : Material
deriving DecidableEq

/-- The SceneObject union; `other` stands for a runtime value whose
type tag is none of the four known ones (the scene is parsed from
unvalidated JSON, so such values can reach the intersector). -/
inductive SceneObject where
  | sphere (s : Sphere) : SceneObject
  | plane (p : Plane) : SceneObject
  | triangle (t : Triangle) : SceneObject
  | box (b : Box) : SceneObject
  | other (tag : String) : SceneObject
deriving DecidableEq

structure Light where
  position : Vec3
  color : Color
  intensity : ℚ
deriving DecidableEq

structure Camera where
  position : Vec3
  target : Vec3
  fov : ℚ
deriving DecidableEq

structure Scene where
  camera : Camera
  lights : List Light
  objects : List SceneObject
  backgroundColor : Color
deriving DecidableEq

structure Ray where
  origin : Vec3
  direction : Vec3
deriving DecidableEq

structure HitInfo where
  hit : Bool
  distance : XQ
  point : Vec3
  normal : Vec3
  material : Material
deriving DecidableEq

/-- Appending the per-element byte lists in order: the loops of the
render methods write 4 bytes per pixel at strictly increasing indices,
which is exactly a concatenation in iteration order. -/
def concatMap (f : ℕ → List ℕ) : List ℕ → List ℕ
  | [] => []
  | a :: l => f a ++ concatMap f l

end Rt

open Rt

/-
  Namespace `Seq`: the methods of class Raytracer (src/src/core/Raytracer.ts),
  lines 48-442.  The canvas, scene-loading and progress-callback plumbing is
  host I/O and carries no pixel data; the pure pixel computation is embedded.
-/
namespace Seq

/-- The record built both as the initial `closestHit` of
findClosestIntersection and by the default branch of intersectObject:
hit false, distance Infinity, zeroed point/normal/material. -/
def noHitBase : HitInfo :=
  { hit := false, distance := XQ.pinf, point := ⟨0, 0, 0⟩, normal := ⟨0, 0, 0⟩,
    material := { color := ⟨0, 0, 0⟩, reflectivity := 0, shininess := 0 } }

/-- A no-hit record carrying the queried primitive's material, as
returned by the early exits of the four intersect methods. -/
def noHitWith (m : Material) : HitInfo :=
  { hit := false, distance := XQ.pinf, point := ⟨0, 0, 0⟩, normal := ⟨0, 0, 0⟩,
    material := m }

/-- Raytracer.intersectSphere, lines 191-238. -/
def intersectSphere (M : MathFns) (ray : Ray) (sphere : Sphere) : HitInfo :=
  let rayOrigin := ray.origin
  let rayDir := ray.direction
  let center := sphere.center
  let oc := rayOrigin.subtract center
  let a := rayDir.dot rayDir
  let b := 2 * oc.dot rayDir
  let c := oc.dot oc - sphere.radius * sphere.radius
  let discriminant := b * b - 4 * a * c
  if discriminant < 0 then noHitWith sphere.material
  else
    let t1 := (-b - M.sqrt discriminant) / (2 * a)
    let t2 := (-b + M.sqrt discriminant) / (2 * a)
    let t := if 1/1000 < t1 then t1 else (if 1/1000 < t2 then t2 else -1)
    if t < 1/1000 then noHitWith sphere.material
    else
      let hitPoint := rayOrigin.add (rayDir.multiply t)
      let normal := Vec3.normalize M (hitPoint.subtract center)
      { hit := true, distance := XQ.fin t, point := hitPoint, normal := normal,
        material := sphere.material }

/-- Raytracer.intersectPlane, lines 240-278. -/
def intersectPlane (M : MathFns) (ray : Ray) (plane : Plane) : HitInfo :=
  let rayDir := ray.direction
  let normal := Vec3.normalize M plane.normal
  let denom := normal.dot rayDir
  if |denom| < 1/10000 then noHitWith plane.material
  else
    let rayOrigin := ray.origin
    let t := ((plane.point.subtract rayOrigin).dot normal) / denom
    if t < 1/1000 then noHitWith plane.material
    else
      let hitPoint := rayOrigin.add (rayDir.multiply t)
      { hit := true, distance := XQ.fin t, point := hitPoint, normal := normal,
        material := plane.material }

/-- Raytracer.intersectTriangle, lines 280-352 (Möller-Trumbore). -/
def intersectTriangle (M : MathFns) (ray : Ray) (triangle : Triangle) : HitInfo :=
  let rayOrigin := ray.origin
  let rayDir := ray.direction
  let edge1 := triangle.v1.subtract triangle.v0
  let edge2 := triangle.v2.subtract triangle.v0
  let h := rayDir.cross edge2
  let a := edge1.dot h
  if |a| < 1/10000 then noHitWith triangle.material
  else
    let f := 1 / a
    let s := rayOrigin.subtract triangle.v0
    let u := f * s.dot h
    if u < 0 ∨ 1 < u then noHitWith triangle.material
    else
      let q := s.cross edge1
      let v := f * rayDir.dot q
      if v < 0 ∨ 1 < u + v then noHitWith triangle.material
      else
        let t := f * edge2.dot q
        if t < 1/1000 then noHitWith triangle.material
        else
          let hitPoint := rayOrigin.add (rayDir.multiply t)
          let normal := Vec3.normalize M (edge1.cross edge2)
          { hit := true, distance := XQ.fin t, point := hitPoint, normal := normal,
            material := triangle.material }

/-- The face-normal selection at the end of Raytracer.intersectBox,
lines 394-398: compare |p.axis / d.axis| against the bias in x, y, z
order, falling back to the sign of p.x.  The divisions follow IEEE
semantics (d.axis can be zero for a degenerate box). -/
def boxNormalOf (p d : Vec3) : Vec3 :=
  let bias : ℚ := 10001/10000
  if xlt (XQ.fin bias) (xabs (xdiv p.x d.x)) then ⟨qsign p.x, 0, 0⟩
  else if xlt (XQ.fin bias) (xabs (xdiv p.y d.y)) then ⟨0, qsign p.y, 0⟩
  else if xlt (XQ.fin bias) (xabs (xdiv p.z d.z)) then ⟨0, 0, qsign p.z⟩
  else ⟨qsign p.x, 0, 0⟩

/-- Raytracer.intersectBox, lines 354-407 (slab method).  The
reciprocals follow IEEE semantics (1/0 = +Infinity), hence the slab
parameters live in `XQ`.  When the guards pass with a non-finite
`tmin` (possible only through NaN/Infinity cascades), the JS hit point
has non-finite coordinates; the embedding stores placeholder finite
coordinates via `XQ.toQ`, and such records, carrying a non-finite
`distance`, are never selected by any later comparison. -/
def intersectBox (M : MathFns) (ray : Ray) (box : Box) : HitInfo :=
  let rayOrigin := ray.origin
  let rayDir := ray.direction
  let invDirX := xdiv 1 rayDir.x
  let invDirY := xdiv 1 rayDir.y
  let invDirZ := xdiv 1 rayDir.z
  let t1 := xmul (box.min.x - rayOrigin.x) invDirX
  let t2 := xmul (box.max.x - rayOrigin.x) invDirX
  let t3 := xmul (box.min.y - rayOrigin.y) invDirY
  let t4 := xmul (box.max.y - rayOrigin.y) invDirY
  let t5 := xmul (box.min.z - rayOrigin.z) invDirZ
  let t6 := xmul (box.max.z - rayOrigin.z) invDirZ
  let tmin := xmax (xmax (xmin t1 t2) (xmin t3 t4)) (xmin t5 t6)
  let tmax := xmin (xmin (xmax t1 t2) (xmax t3 t4)) (xmax t5 t6)
  if xlt tmax (XQ.fin 0) || xlt tmax tmin || xlt tmin (XQ.fin (1/1000)) then
    noHitWith box.material
  else
    let t := tmin
    let hitPoint := rayOrigin.add (rayDir.multiply t.toQ)
    let center := (box.min.add box.max).multiply (1/2)
    let p := hitPoint.subtract center
    let d := (box.min.subtract center).multiply (1/2)
    { hit := true, distance := t, point := hitPoint,
      normal := boxNormalOf p d, material := box.material }

/-- Raytracer.intersectObject, lines 170-189: dispatch on the type
tag; the default branch returns a fresh not-found record. -/
def intersectObject (M : MathFns) (ray : Ray) : SceneObject → HitInfo
  | SceneObject.sphere s => intersectSphere M ray s
  | SceneObject.plane p => intersectPlane M ray p
  | SceneObject.triangle t => intersectTriangle M ray t
  | SceneObject.box b => intersectBox M ray b
  | SceneObject.other _ => noHitBase

/-- Raytracer.findClosestIntersection, lines 151-168: linear scan,
replacing the best record exactly when the candidate has its hit flag
set and a strictly smaller distance. -/
def findClosestIntersection (M : MathFns) (scene : Scene) (ray : Ray) : HitInfo :=
  scene.objects.foldl
    (fun closestHit obj =>
      let hit := intersectObject M ray obj
      if hit.hit && xlt hit.distance closestHit.distance then hit else closestHit)
    noHitBase

/-- Raytracer.calculateLighting, lines 409-442. -/
def calculateLighting (M : MathFns) (scene : Scene) (hit : HitInfo)
    (light : Light) (ray : Ray) : Color :=
  let hitPoint := hit.point
  let lightPos := light.position
  let normal := hit.normal
  let lightDir := Vec3.normalize M (lightPos.subtract hitPoint)
  let distance := (lightPos.subtract hitPoint).length M
  let shadowOffset := normal.multiply (1/1000)
  let shadowRay : Ray := { origin := hitPoint.add shadowOffset, direction := lightDir }
  let shadowHit := findClosestIntersection M scene shadowRay
  if shadowHit.hit && xlt shadowHit.distance (XQ.fin distance) then ⟨0, 0, 0⟩
  else
    let diffuse := max 0 (normal.dot lightDir)
    let attenuation := 1 / (1 + (1/10) * distance + (1/100) * distance * distance)
    let viewDir := Vec3.normalize M (ray.direction.multiply (-1))
    let reflectDir := Vec3.normalize M ((lightDir.multiply (-1)).reflect normal)
    let specular := M.pow (max 0 (viewDir.dot reflectDir)) hit.material.shininess
    let intensity := light.intensity * attenuation
    { r := (hit.material.color.r * diffuse + specular) * light.color.r * intensity,
      g := (hit.material.color.g * diffuse + specular) * light.color.g * intensity,
      b := (hit.material.color.b * diffuse + specular) * light.color.b * intensity }

/-- Raytracer.traceRay, lines 112-149, on a natural-number depth.
The source depth is an integer; `traceRay` below wraps this via
`Int.toNat`, which is exact on the source's tests: depth <= 0 iff
toNat = 0, depth > 1 iff toNat > 1 (here: 0 < n for fuel n+1), and
(depth - 1).toNat = depth.toNat - 1 for depth > 1. -/
def traceRayF (M : MathFns) (scene : Scene) : ℕ → Ray → Color
  | 0, _ => ⟨0, 0, 0⟩
  | n + 1, ray =>
    let hit := findClosestIntersection M scene ray
    if hit.hit = false then scene.backgroundColor
    else
      let color := scene.lights.foldl
        (fun c light =>
          let lightColor := calculateLighting M scene hit light ray
          ⟨c.r + lightColor.r, c.g + lightColor.g, c.b + lightColor.b⟩)
        ⟨0, 0, 0⟩
      if 0 < hit.material.reflectivity ∧ 0 < n then
        let reflected := Vec3.normalize M (ray.direction.reflect hit.normal)
        let reflectionRay : Ray := { origin := hit.point, direction := reflected }
        let reflectedColor := traceRayF M scene n reflectionRay
        let reflectivity := hit.material.reflectivity
        { r := color.r * (1 - reflectivity) + reflectedColor.r * reflectivity,
          g := color.g * (1 - reflectivity) + reflectedColor.g * reflectivity,
          b := color.b * (1 - reflectivity) + reflectedColor.b * reflectivity }
      else color

/-- Raytracer.traceRay with the source's integer depth. -/
def traceRay (M : MathFns) (scene : Scene) (ray : Ray) (depth : ℤ) : Color :=
  traceRayF M scene depth.toNat ray

/-- The camera basis of Raytracer.getRay, lines 97-99: forward. -/
def camForward (M : MathFns) (camera : Camera) : Vec3 :=
  Vec3.normalize M (camera.target.subtract camera.position)

/-- The camera basis of Raytracer.getRay: right = normalize(forward x worldUp). -/
def camRight (M : MathFns) (camera : Camera) : Vec3 :=
  Vec3.normalize M ((camForward M camera).cross ⟨0, 1, 0⟩)

/-- The camera basis of Raytracer.getRay: up = normalize(right x forward). -/
def camUp (M : MathFns) (camera : Camera) : Vec3 :=
  Vec3.normalize M ((camRight M camera).cross (camForward M camera))

/-- Raytracer.getRay, lines 81-110. -/
def getRay (M : MathFns) (scene : Scene) (width height : ℕ) (x y : ℕ) : Ray :=
  let aspect := (width : ℚ) / (height : ℚ)
  let fovRadians := scene.camera.fov * M.pi / 180
  let ndcX := ((x : ℚ) + 1/2) / (width : ℚ)
  let ndcY := ((y : ℚ) + 1/2) / (height : ℚ)
  let screenX := 2 * ndcX - 1
  let screenY := 1 - 2 * ndcY
  let cameraX := screenX * aspect * M.tan (fovRadians / 2)
  let cameraY := screenY * M.tan (fovRadians / 2)
  let forward := camForward M scene.camera
  let right := camRight M scene.camera
  let upv := camUp M scene.camera
  let rayDirection :=
    Vec3.normalize M ((forward.add (right.multiply cameraX)).add (upv.multiply cameraY))
  { origin := scene.camera.position, direction := rayDirection }

/-- The four bytes one iteration of the pixel loop of Raytracer.render
(lines 56-64) stores at offset (y*width+x)*4: three clamped color
channels and the constant alpha 255. -/
def pixelBytes (M : MathFns) (scene : Scene) (width height : ℕ) (maxDepth : ℤ)
    (x y : ℕ) : List ℕ :=
  let ray := getRay M scene width height x y
  let color := traceRay M scene ray maxDepth
  [clampByte color.r, clampByte color.g, clampByte color.b, 255]

/-- Raytracer.render, lines 48-79: rows 0..height-1, columns
0..width-1, 4 bytes per pixel in iteration order. -/
def render (M : MathFns) (scene : Scene) (width height : ℕ) (maxDepth : ℤ) : List ℕ :=
  concatMap
    (fun y => concatMap (fun x => pixelBytes M scene width height maxDepth x y)
      (List.range width))
    (List.range height)

end Seq

/-
  Namespace `Wk`: the methods of class WorkerRaytracer
  (src/unnamed/part_000, lines 119-514).  The worker file carries its
  own textually identical copy of the Vector3 class (lines 54-102);
  the shared `Vec3` embedding above serves both copies.  The
  self.onmessage handler (lines 516-521) only forwards one
  WorkerMessage to `render` and posts the WorkerResponse back.
-/
namespace Wk

/-- The initial `closestHit` of WorkerRaytracer.findClosestIntersection
and the default branch of its intersectObject (identical record to the
sequential one). -/
def noHitBase : HitInfo :=
  { hit := false, distance := XQ.pinf, point := ⟨0, 0, 0⟩, normal := ⟨0, 0, 0⟩,
    material := { color := ⟨0, 0, 0⟩, reflectivity := 0, shininess := 0 } }

/-- The material-carrying no-hit record of the worker's intersect methods. -/
def noHitWith (m : Material) : HitInfo :=
  { hit := false, distance := XQ.pinf, point := ⟨0, 0, 0⟩, normal := ⟨0, 0, 0⟩,
    material := m }

/-- WorkerRaytracer.intersectSphere, lines 265-312. -/
def intersectSphere (M : MathFns) (ray : Ray) (sphere : Sphere) : HitInfo :=
  let rayOrigin := ray.origin
  let rayDir := ray.direction
  let center := sphere.center
  let oc := rayOrigin.subtract center
  let a := rayDir.dot rayDir
  let b := 2 * oc.dot rayDir
  let c := oc.dot oc - sphere.radius * sphere.radius
  let discriminant := b * b - 4 * a * c
  if discriminant < 0 then noHitWith sphere.material
  else
    let t1 := (-b - M.sqrt discriminant) / (2 * a)
    let t2 := (-b + M.sqrt discriminant) / (2 * a)
    let t := if 1/1000 < t1 then t1 else (if 1/1000 < t2 then t2 else -1)
    if t < 1/1000 then noHitWith sphere.material
    else
      let hitPoint := rayOrigin.add (rayDir.multiply t)
      let normal := Vec3.normalize M (hitPoint.subtract center)
      { hit := true, distance := XQ.fin t, point := hitPoint, normal := normal,
        material := sphere.material }

/-- WorkerRaytracer.intersectPlane, lines 314-352. -/
def intersectPlane (M : MathFns) (ray : Ray) (plane : Plane) : HitInfo :=
  let rayDir := ray.direction
  let normal := Vec3.normalize M plane.normal
  let denom := normal.dot rayDir
  if |denom| < 1/10000 then noHitWith plane.material
  else
    let rayOrigin := ray.origin
    let t := ((plane.point.subtract rayOrigin).dot normal) / denom
    if t < 1/1000 then noHitWith plane.material
    else
      let hitPoint := rayOrigin.add (rayDir.multiply t)
      { hit := true, distance := XQ.fin t, point := hitPoint, normal := normal,
        material := plane.material }

/-- WorkerRaytracer.intersectTriangle, lines 354-425. -/
def intersectTriangle (M : MathFns) (ray : Ray) (triangle : Triangle) : HitInfo :=
  let rayOrigin := ray.origin
  let rayDir := ray.direction
  let edge1 := triangle.v1.subtract triangle.v0
  let edge2 := triangle.v2.subtract triangle.v0
  let h := rayDir.cross edge2
  let a := edge1.dot h
  if |a| < 1/10000 then noHitWith triangle.material
  else
    let f := 1 / a
    let s := rayOrigin.subtract triangle.v0
    let u := f * s.dot h
    if u < 0 ∨ 1 < u then noHitWith triangle.material
    else
      let q := s.cross edge1
      let v := f * rayDir.dot q
      if v < 0 ∨ 1 < u + v then noHitWith triangle.material
      else
        let t := f * edge2.dot q
        if t < 1/1000 then noHitWith triangle.material
        else
          let hitPoint := rayOrigin.add (rayDir.multiply t)
          let normal := Vec3.normalize M (edge1.cross edge2)
          { hit := true, distance := XQ.fin t, point := hitPoint, normal := normal,
            material := triangle.material }

/-- WorkerRaytracer.intersectBox, lines 427-478 (identical slab code;
see the notes on `Seq.intersectBox`). -/
def intersectBox (M : MathFns) (ray : Ray) (box : Box) : HitInfo :=
  let rayOrigin := ray.origin
  let rayDir := ray.direction
  let invDirX := xdiv 1 rayDir.x
  let invDirY := xdiv 1 rayDir.y
  let invDirZ := xdiv 1 rayDir.z
  let t1 := xmul (box.min.x - rayOrigin.x) invDirX
  let t2 := xmul (box.max.x - rayOrigin.x) invDirX
  let t3 := xmul (box.min.y - rayOrigin.y) invDirY
  let t4 := xmul (box.max.y - rayOrigin.y) invDirY
  let t5 := xmul (box.min.z - rayOrigin.z) invDirZ
  let t6 := xmul (box.max.z - rayOrigin.z) invDirZ
  let tmin := xmax (xmax (xmin t1 t2) (xmin t3 t4)) (xmin t5 t6)
  let tmax := xmin (xmin (xmax t1 t2) (xmax t3 t4)) (xmax t5 t6)
  if xlt tmax (XQ.fin 0) || xlt tmax tmin || xlt tmin (XQ.fin (1/1000)) then
    noHitWith box.material
  else
    let t := tmin
    let hitPoint := rayOrigin.add (rayDir.multiply t.toQ)
    let center := (box.min.add box.max).multiply (1/2)
    let p := hitPoint.subtract center
    let d := (box.min.subtract center).multiply (1/2)
    { hit := true, distance := t, point := hitPoint,
      normal := Seq.boxNormalOf p d, material := box.material }

/-- WorkerRaytracer.intersectObject, lines 244-263. -/
def intersectObject (M : MathFns) (ray : Ray) : SceneObject → HitInfo
  | SceneObject.sphere s => intersectSphere M ray s
  | SceneObject.plane p => intersectPlane M ray p
  | SceneObject.triangle t => intersectTriangle M ray t
  | SceneObject.box b => intersectBox M ray b
  | SceneObject.other _ => noHitBase

/-- WorkerRaytracer.findClosestIntersection, lines 225-242. -/
def findClosestIntersection (M : MathFns) (scene : Scene) (ray : Ray) : HitInfo :=
  scene.objects.foldl
    (fun closestHit obj =>
      let hit := intersectObject M ray obj
      if hit.hit && xlt hit.distance closestHit.distance then hit else closestHit)
    noHitBase

/-- WorkerRaytracer.calculateLighting, lines 480-513. -/
def calculateLighting (M : MathFns) (scene : Scene) (hit : HitInfo)
    (light : Light) (ray : Ray) : Color :=
  let hitPoint := hit.point
  let lightPos := light.position
  let normal := hit.normal
  let lightDir := Vec3.normalize M (lightPos.subtract hitPoint)
  let distance := (lightPos.subtract hitPoint).length M
  let shadowOffset := normal.multiply (1/1000)
  let shadowRay : Ray := { origin := hitPoint.add shadowOffset, direction := lightDir }
  let shadowHit := findClosestIntersection M scene shadowRay
  if shadowHit.hit && xlt shadowHit.distance (XQ.fin distance) then ⟨0, 0, 0⟩
  else
    let diffuse := max 0 (normal.dot lightDir)
    let attenuation := 1 / (1 + (1/10) * distance + (1/100) * distance * distance)
    let viewDir := Vec3.normalize M (ray.direction.multiply (-1))
    let reflectDir := Vec3.normalize M ((lightDir.multiply (-1)).reflect normal)
    let specular := M.pow (max 0 (viewDir.dot reflectDir)) hit.material.shininess
    let intensity := light.intensity * attenuation
    { r := (hit.material.color.r * diffuse + specular) * light.color.r * intensity,
      g := (hit.material.color.g * diffuse + specular) * light.color.g * intensity,
      b := (hit.material.color.b * diffuse + specular) * light.color.b * intensity }

/-- WorkerRaytracer.traceRay, lines 186-223, on natural fuel,
identically to `Seq.traceRayF`. -/
def traceRayF (M : MathFns) (scene : Scene) : ℕ → Ray → Color
  | 0, _ => ⟨0, 0, 0⟩
  | n + 1, ray =>
    let hit := findClosestIntersection M scene ray
    if hit.hit = false then scene.backgroundColor
    else
      let color := scene.lights.foldl
        (fun c light =>
          let lightColor := calculateLighting M scene hit light ray
          ⟨c.r + lightColor.r, c.g + lightColor.g, c.b + lightColor.b⟩)
        ⟨0, 0, 0⟩
      if 0 < hit.material.reflectivity ∧ 0 < n then
        let reflected := Vec3.normalize M (ray.direction.reflect hit.normal)
        let reflectionRay : Ray := { origin := hit.point, direction := reflected }
        let reflectedColor := traceRayF M scene n reflectionRay
        let reflectivity := hit.material.reflectivity
        { r := color.r * (1 - reflectivity) + reflectedColor.r * reflectivity,
          g := color.g * (1 - reflectivity) + reflectedColor.g * reflectivity,
          b := color.b * (1 - reflectivity) + reflectedColor.b * reflectivity }
      else color

/-- WorkerRaytracer.traceRay with the source's integer depth. -/
def traceRay (M : MathFns) (scene : Scene) (ray : Ray) (depth : ℤ) : Color :=
  traceRayF M scene depth.toNat ray

/-- WorkerRaytracer.getRay, lines 155-184 (identical to the
sequential one). -/
def getRay (M : MathFns) (scene : Scene) (width height : ℕ) (x y : ℕ) : Ray :=
  let aspect := (width : ℚ) / (height : ℚ)
  let fovRadians := scene.camera.fov * M.pi / 180
  let ndcX := ((x : ℚ) + 1/2) / (width : ℚ)
  let ndcY := ((y : ℚ) + 1/2) / (height : ℚ)
  let screenX := 2 * ndcX - 1
  let screenY := 1 - 2 * ndcY
  let cameraX := screenX * aspect * M.tan (fovRadians / 2)
  let cameraY := screenY * M.tan (fovRadians / 2)
  let forward := Vec3.normalize M (scene.camera.target.subtract scene.camera.position)
  let right := Vec3.normalize M (forward.cross ⟨0, 1, 0⟩)
  let upv := Vec3.normalize M (right.cross forward)
  let rayDirection :=
    Vec3.normalize M ((forward.add (right.multiply cameraX)).add (upv.multiply cameraY))
  { origin := scene.camera.position, direction := rayDirection }

/-- The four bytes one iteration of the worker's pixel loop (lines
134-145) stores at offset (localY*width+x)*4. -/
def pixelBytes (M : MathFns) (scene : Scene) (width height : ℕ) (maxDepth : ℤ)
    (x y : ℕ) : List ℕ :=
  let ray := getRay M scene width height x y
  let color := traceRay M scene ray maxDepth
  [clampByte color.r, clampByte color.g, clampByte color.b, 255]

/-- WorkerRaytracer.render, lines 125-153: the band's rows startRow to
endRow-1 in order; row y lands at local row y - startRow, so iterating
the local row index ly with y = startRow + ly is the same loop. -/
def render (M : MathFns) (scene : Scene) (width height : ℕ)
    (startRow endRow : ℕ) (maxDepth : ℤ) : List ℕ :=
  concatMap
    (fun ly => concatMap
      (fun x => pixelBytes M scene width height maxDepth x (startRow + ly))
      (List.range width))
    (List.range (endRow - startRow))

end Wk

/-
  Helper lemmas and the concrete math oracle used by witnesses.
-/

/-- Kernel-reducible integer square root by bounded scan (witness
oracle helper; the inputs used in witnesses are small). -/
def natSqrtScan (n : ℕ) : ℕ :=
  (List.range (n + 1)).foldl (fun acc k => if k * k ≤ n then k else acc) 0

/-- Rational square root, exact on perfect squares: the values IEEE
Math.sqrt returns at the inputs our witnesses use.  (Witness oracle,
not part of the embedded source.) -/
def ratSqrt (q : ℚ) : ℚ :=
  (natSqrtScan q.num.toNat : ℚ) / (natSqrtScan q.den : ℚ)

/-- Concrete witness oracle: exact square roots on perfect squares;
tan, pow and pi only need to be some definite rational functions for
the universally quantified theorems to be instantiated. -/
def ratMath : MathFns where
  sqrt := ratSqrt
  tan := fun q => q
  pow := fun b e => if b = 1 then 1 else if e = 0 then 1 else 0
  pi := 0

theorem ratSqrt_zero : ratSqrt 0 = 0 := by
  have h1 : (0 : ℚ).num.toNat = 0 := rfl
  have h2 : (0 : ℚ).den = 1 := rfl
  rw [ratSqrt, h1, h2]
  norm_num [natSqrtScan, List.range_succ]

theorem ratSqrt_one : ratSqrt 1 = 1 := by
  have h1 : (1 : ℚ).num.toNat = 1 := rfl
  have h2 : (1 : ℚ).den = 1 := rfl
  rw [ratSqrt, h1, h2]
  norm_num [natSqrtScan, List.range_succ]

theorem ratSqrt_four : ratSqrt 4 = 2 := by
  have h1 : (4 : ℚ).num.toNat = 4 := rfl
  have h2 : (4 : ℚ).den = 1 := rfl
  rw [ratSqrt, h1, h2]
  norm_num [natSqrtScan, List.range_succ]

theorem ratSqrt_nine : ratSqrt 9 = 3 := by
  have h1 : (9 : ℚ).num.toNat = 9 := rfl
  have h2 : (9 : ℚ).den = 1 := rfl
  rw [ratSqrt, h1, h2]
  norm_num [natSqrtScan, List.range_succ]

theorem ratSqrt_25 : ratSqrt 25 = 5 := by
  have h1 : (25 : ℚ).num.toNat = 25 := rfl
  have h2 : (25 : ℚ).den = 1 := rfl
  rw [ratSqrt, h1, h2]
  norm_num [natSqrtScan, List.range_succ]

theorem concatMap_length (f : ℕ → List ℕ) (n : ℕ) :
    ∀ l : List ℕ, (∀ a ∈ l, (f a).length = n) →
      (Rt.concatMap f l).length = n * l.length := by
  intro l
  induction l with
  | nil => intro _; simp [Rt.concatMap]
  | cons a l ih =>
    intro hl
    have ha : (f a).length = n := hl a (by simp)
    have hrest := ih (fun b hb => hl b (by simp [hb]))
    simp [Rt.concatMap, List.length_append, ha, hrest]
    ring

theorem concatMap_getD (f : ℕ → List ℕ) (n : ℕ) :
    ∀ l : List ℕ, (∀ a ∈ l, (f a).length = n) →
    ∀ i k : ℕ, i < l.length → k < n →
      (Rt.concatMap f l).getD (n * i + k) 0 = (f (l.getD i 0)).getD k 0 := by
  intro l
  induction l with
  | nil => intro _ i k hi _; simp at hi
  | cons a l ih =>
    intro hl i k hi hk
    have ha : (f a).length = n := hl a (by simp)
    cases i with
    | zero =>
      have hlt : k < (f a).length := by omega
      simpa [Rt.concatMap] using List.getD_append (f a) (Rt.concatMap f l) 0 k hlt
    | succ i =>
      have hidx : n * (i + 1) + k = (f a).length + (n * i + k) := by
        rw [ha]; ring
      have hge : (f a).length ≤ n * (i + 1) + k := by omega
      have := List.getD_append_right (f a) (Rt.concatMap f l) 0 (n * (i + 1) + k) hge
      rw [Rt.concatMap, this]
      have hsub : n * (i + 1) + k - (f a).length = n * i + k := by omega
      rw [hsub]
      exact ih (fun b hb => hl b (by simp [hb])) i k (by simpa using hi) hk

theorem range_getD (h y : ℕ) (hy : y < h) : (List.range h).getD y 0 = y := by
  rw [List.getD_eq_getElem _ _ (by simpa using hy)]
  simp

/-
  The worker pipeline is function-by-function equal to the sequential
  one (the two classes carry textually identical method bodies).
-/

theorem wk_intersectObject_eq : Wk.intersectObject = Seq.intersectObject := by
  funext M ray obj
  cases obj <;> rfl

theorem wk_noHitBase_eq : Wk.noHitBase = Seq.noHitBase := rfl

theorem wk_findClosest_eq : Wk.findClosestIntersection = Seq.findClosestIntersection := by
  funext M scene ray
  unfold Wk.findClosestIntersection Seq.findClosestIntersection
  rw [wk_intersectObject_eq, wk_noHitBase_eq]

theorem wk_calculateLighting_eq : Wk.calculateLighting = Seq.calculateLighting := by
  funext M scene hit light ray
  unfold Wk.calculateLighting Seq.calculateLighting
  rw [wk_findClosest_eq]

theorem wk_traceRayF_eq (M : MathFns) (scene : Scene) :
    ∀ n ray, Wk.traceRayF M scene n ray = Seq.traceRayF M scene n ray := by
  intro n
  induction n with
  | zero => intro ray; rfl
  | succ n ih =>
    intro ray
    rw [Wk.traceRayF, Seq.traceRayF, wk_findClosest_eq, wk_calculateLighting_eq]
    simp only [ih]

theorem wk_traceRay_eq (M : MathFns) (scene : Scene) (ray : Ray) (depth : ℤ) :
    Wk.traceRay M scene ray depth = Seq.traceRay M scene ray depth :=
  wk_traceRayF_eq M scene depth.toNat ray

theorem wk_getRay_eq : Wk.getRay = Seq.getRay := by
  funext M scene w h x y
  rfl

theorem wk_pixelBytes_eq : Wk.pixelBytes = Seq.pixelBytes := by
  funext M scene w h d x y
  simp only [Wk.pixelBytes, Seq.pixelBytes, wk_getRay_eq, wk_traceRay_eq]

theorem seq_row_length (M : MathFns) (scene : Scene) (width height : ℕ)
    (maxDepth : ℤ) (y : ℕ) :
    (Rt.concatMap (fun x => Seq.pixelBytes M scene width height maxDepth x y)
      (List.range width)).length = 4 * width := by
  have := concatMap_length
    (fun x => Seq.pixelBytes M scene width height maxDepth x y) 4
    (List.range width) (fun _ _ => rfl)
  simpa using this

theorem wk_row_length (M : MathFns) (scene : Scene) (width height : ℕ)
    (maxDepth : ℤ) (startRow ly : ℕ) :
    (Rt.concatMap
      (fun x => Wk.pixelBytes M scene width height maxDepth x (startRow + ly))
      (List.range width)).length = 4 * width := by
  have := concatMap_length
    (fun x => Wk.pixelBytes M scene width height maxDepth x (startRow + ly)) 4
    (List.range width) (fun _ _ => rfl)
  simpa using this

/-- C1: for every scene, image dimensions and maxDepth, the sequential
per-pixel render path (Raytracer.render) and the parallel worker band
render path (WorkerRaytracer.render) compute byte-identical pixel
values: for each pixel (x, y) and each of its four RGBA bytes, the
byte the sequential path stores at offset (y*width+x)*4+k equals the
byte the worker stores at offset ((y-startRow)*width+x)*4+k for any
band [startRow, endRow) containing y.  Both paths are pure Lean
functions of (math oracle, scene, width, height, maxDepth), hence
deterministic by construction. -/
theorem c1_seq_worker_byte_identical (M : MathFns) (scene : Scene)
    (width height : ℕ) (maxDepth : ℤ) (x y startRow endRow k : ℕ)
    (hx : x < width) (hy : y < height) (h1 : startRow ≤ y) (h2 : y < endRow)
    (hk : k < 4) :
    (Seq.render M scene width height maxDepth).getD ((y * width + x) * 4 + k) 0
      = (Wk.render M scene width height startRow endRow maxDepth).getD
          (((y - startRow) * width + x) * 4 + k) 0 := by
  have hidx1 : (y * width + x) * 4 + k = (4 * width) * y + (4 * x + k) := by ring
  have hidx2 : ((y - startRow) * width + x) * 4 + k
      = (4 * width) * (y - startRow) + (4 * x + k) := by ring
  rw [Seq.render, hidx1,
    concatMap_getD _ (4 * width) (List.range height)
      (fun a _ => seq_row_length M scene width height maxDepth a)
      y (4 * x + k) (by simpa using hy) (by omega),
    range_getD height y hy,
    concatMap_getD (fun x => Seq.pixelBytes M scene width height maxDepth x y) 4
      (List.range width) (fun _ _ => rfl) x k (by simpa using hx) hk,
    range_getD width x hx]
  rw [Wk.render, hidx2,
    concatMap_getD _ (4 * width) (List.range (endRow - startRow))
      (fun a _ => wk_row_length M scene width height maxDepth startRow a)
      (y - startRow) (4 * x + k) (by simp; omega) (by omega),
    range_getD (endRow - startRow) (y - startRow) (by omega),
    concatMap_getD
      (fun x => Wk.pixelBytes M scene width height maxDepth x
        (startRow + (y - startRow))) 4
      (List.range width) (fun _ _ => rfl) x k (by simpa using hx) hk,
    range_getD width x hx,
    wk_pixelBytes_eq, Nat.add_sub_cancel' h1]

/-- A minimal concrete scene for witnesses: empty object and light
lists, orange background. -/
def scene0 : Scene :=
  { camera := { position := ⟨0, 0, 5⟩, target := ⟨0, 0, 4⟩, fov := 90 },
    lights := [], objects := [], backgroundColor := ⟨1, 1/2, 0⟩ }

theorem c1_seq_worker_byte_identical_witness :
    (Seq.render ratMath scene0 1 1 1).getD 0 0
      = (Wk.render ratMath scene0 1 1 0 1 1).getD 0 0 :=
  c1_seq_worker_byte_identical ratMath scene0 1 1 1 0 0 0 1 0
    (by decide) (by decide) (by decide) (by decide) (by decide)

/-- The byte the sequential render stores at offset (y*width+x)*4+k is
byte k of the pixel computed for (x, y). -/
theorem seq_render_getD (M : MathFns) (scene : Scene) (width height : ℕ)
    (maxDepth : ℤ) (x y k : ℕ) (hx : x < width) (hy : y < height) (hk : k < 4) :
    (Seq.render M scene width height maxDepth).getD ((y * width + x) * 4 + k) 0
      = (Seq.pixelBytes M scene width height maxDepth x y).getD k 0 := by
  have hidx1 : (y * width + x) * 4 + k = (4 * width) * y + (4 * x + k) := by ring
  rw [Seq.render, hidx1,
    concatMap_getD _ (4 * width) (List.range height)
      (fun a _ => seq_row_length M scene width height maxDepth a)
      y (4 * x + k) (by simpa using hy) (by omega),
    range_getD height y hy,
    concatMap_getD (fun x => Seq.pixelBytes M scene width height maxDepth x y) 4
      (List.range width) (fun _ _ => rfl) x k (by simpa using hx) hk,
    range_getD width x hx]

/-- C2: the render output is a pixel buffer of exactly width*height*4
bytes in row-major top-to-bottom RGBA8 order; for every pixel the
alpha byte is 255, and each of the three color bytes is the reference
clamp formula min(255, max(0, channel*255)) applied to the traced
color's corresponding channel (followed by the round-to-nearest-even
integer conversion a Uint8ClampedArray store performs on the already
clamped value, the spec's "truncating/rounding per implementation
choice"). -/
theorem c2_buffer_contract (M : MathFns) (scene : Scene) (width height : ℕ)
    (maxDepth : ℤ) (x y : ℕ) (hx : x < width) (hy : y < height) :
    (Seq.render M scene width height maxDepth).length = width * height * 4
    ∧ (Seq.render M scene width height maxDepth).getD ((y * width + x) * 4 + 3) 0 = 255
    ∧ (Seq.render M scene width height maxDepth).getD ((y * width + x) * 4) 0
        = (roundHalfEven (min 255 (max 0
            ((Seq.traceRay M scene (Seq.getRay M scene width height x y) maxDepth).r
              * 255)))).toNat
    ∧ (Seq.render M scene width height maxDepth).getD ((y * width + x) * 4 + 1) 0
        = (roundHalfEven (min 255 (max 0
            ((Seq.traceRay M scene (Seq.getRay M scene width height x y) maxDepth).g
              * 255)))).toNat
    ∧ (Seq.render M scene width height maxDepth).getD ((y * width + x) * 4 + 2) 0
        = (roundHalfEven (min 255 (max 0
            ((Seq.traceRay M scene (Seq.getRay M scene width height x y) maxDepth).b
              * 255)))).toNat := by
  refine ⟨?_, ?_, ?_, ?_, ?_⟩
  · have hlen := concatMap_length _ (4 * width) (List.range height)
      (fun a _ => seq_row_length M scene width height maxDepth a)
    rw [Seq.render, hlen]
    simp [List.length_range]
    ring
  · rw [seq_render_getD M scene width height maxDepth x y 3 hx hy (by omega)]
    rfl
  · have h0 := seq_render_getD M scene width height maxDepth x y 0 hx hy (by omega)
    simpa using h0
  · rw [seq_render_getD M scene width height maxDepth x y 1 hx hy (by omega)]
    rfl
  · rw [seq_render_getD M scene width height maxDepth x y 2 hx hy (by omega)]
    rfl

/-
  XQ order facts used by the nearest-hit characterization.  They hold
  on the NaN-free fragment {fin q} / pinf, which is where all the
  compared values live once every hit record carries a finite
  distance.
-/

/-- Not smaller than the accumulator and the accumulator was beaten:
the candidate does not beat the winner either. -/
theorem xlt_none_of_beaten (a c : ℚ) (b : XQ)
    (hb : b = XQ.pinf ∨ ∃ q, b = XQ.fin q)
    (hab : xlt (XQ.fin a) b = false) (hcb : xlt (XQ.fin c) b = true) :
    xlt (XQ.fin a) (XQ.fin c) = false := by
  rcases hb with hb | ⟨q, hb⟩ <;> subst hb
  · simp [xlt] at hab
  · simp only [xlt, decide_eq_true_eq, decide_eq_false_iff_not] at hab hcb ⊢
    intro h
    exact hab (lt_trans h hcb)

/-- The winner strictly beats any earlier candidate that failed to
replace an accumulator the winner replaced. -/
theorem xlt_win_of_beaten (a c : ℚ) (b : XQ)
    (hb : b = XQ.pinf ∨ ∃ q, b = XQ.fin q)
    (hab : xlt (XQ.fin a) b = false) (hcb : xlt (XQ.fin c) b = true) :
    xlt (XQ.fin c) (XQ.fin a) = true := by
  rcases hb with hb | ⟨q, hb⟩ <;> subst hb
  · simp [xlt] at hab
  · simp only [xlt, decide_eq_true_eq, decide_eq_false_iff_not] at hab hcb ⊢
    have : q ≤ a := not_lt.mp hab
    linarith

/-- Transitivity through a finite middle value into a pinf-or-finite
bound. -/
theorem xlt_trans_fin (c h : ℚ) (b : XQ)
    (hb : b = XQ.pinf ∨ ∃ q, b = XQ.fin q)
    (h1 : xlt (XQ.fin c) (XQ.fin h) = true) (h2 : xlt (XQ.fin h) b = true) :
    xlt (XQ.fin c) b = true := by
  rcases hb with hb | ⟨q, hb⟩ <;> subst hb
  · simp [xlt]
  · simp only [xlt, decide_eq_true_eq] at h1 h2 ⊢
    linarith

theorem xlt_fin_irrefl (a : ℚ) : xlt (XQ.fin a) (XQ.fin a) = false := by
  simp [xlt]

theorem xlt_fin_asymm (a c : ℚ) (h : xlt (XQ.fin a) (XQ.fin c) = true) :
    xlt (XQ.fin c) (XQ.fin a) = false := by
  simp only [xlt, decide_eq_true_eq, decide_eq_false_iff_not] at h ⊢
  linarith

/-- The body of the findClosestIntersection loop, on an already
computed candidate record. -/
def selStep (closestHit hit : HitInfo) : HitInfo :=
  if hit.hit && xlt hit.distance closestHit.distance then hit else closestHit

theorem findClosest_eq_fold (M : MathFns) (scene : Scene) (ray : Ray) :
    Seq.findClosestIntersection M scene ray
      = (scene.objects.map (Seq.intersectObject M ray)).foldl selStep Seq.noHitBase := by
  rw [List.foldl_map]
  rfl

/-- Characterization of the linear scan: either nothing replaced the
accumulator (and then no listed hit beats it), or the result is the
first listed hit attaining the minimum distance: it is a hit from the
list, beats the accumulator, no listed hit is strictly smaller, and it
is strictly smaller than every hit listed before it. -/
theorem selFold_spec (l : List HitInfo) (b : HitInfo)
    (hl : ∀ h ∈ l, h.hit = true → ∃ q, h.distance = XQ.fin q)
    (hb : b.distance = XQ.pinf ∨ ∃ q, b.distance = XQ.fin q) :
    (l.foldl selStep b = b
      ∧ ∀ h ∈ l, h.hit = true → xlt h.distance b.distance = false)
    ∨ (∃ i : ℕ, ∃ hi : i < l.length,
        l.foldl selStep b = l.get ⟨i, hi⟩
        ∧ (l.get ⟨i, hi⟩).hit = true
        ∧ xlt (l.get ⟨i, hi⟩).distance b.distance = true
        ∧ (∀ h ∈ l, h.hit = true →
            xlt h.distance (l.get ⟨i, hi⟩).distance = false)
        ∧ (∀ j : ℕ, ∀ hj : j < l.length, j < i → (l.get ⟨j, hj⟩).hit = true →
            xlt (l.get ⟨i, hi⟩).distance (l.get ⟨j, hj⟩).distance = true)) := by
  induction l generalizing b with
  | nil => exact Or.inl ⟨rfl, by simp⟩
  | cons h t ih =>
    have hfold : (h :: t).foldl selStep b = t.foldl selStep (selStep b h) := rfl
    by_cases hg : (h.hit && xlt h.distance b.distance) = true
    · -- the head replaces the accumulator
      have hg2 : h.hit = true ∧ xlt h.distance b.distance = true := by
        constructor
        · cases hv : h.hit with
          | false => rw [hv] at hg; simp at hg
          | true => rfl
        · cases hv : xlt h.distance b.distance with
          | false => rw [hv] at hg; simp at hg
          | true => rfl
      obtain ⟨hh, hxb⟩ := hg2
      obtain ⟨qh, hq⟩ := hl h (List.mem_cons_self h t) hh
      have hstep : selStep b h = h := by simp [selStep, hg]
      rw [hstep] at hfold
      have hb2 : h.distance = XQ.pinf ∨ ∃ q, h.distance = XQ.fin q := Or.inr ⟨qh, hq⟩
      rcases ih h (fun x hx hhit => hl x (List.mem_cons_of_mem h hx) hhit) hb2 with
        ⟨heq, hall⟩ | ⟨i, hi, heq, hhit, hxacc, hmin, hfirst⟩
      · -- nothing in the tail beat the head: the head is selected, index 0
        refine Or.inr ⟨0, by simp, ?_, hh, hxb, ?_, ?_⟩
        · rw [hfold, heq]
          rfl
        · intro x hx hhit2
          show xlt x.distance h.distance = false
          rcases List.mem_cons.mp hx with hx | hx
          · rw [hx, hq]
            exact xlt_fin_irrefl qh
          · exact hall x hx hhit2
        · intro j hj hj0 _
          omega
      · -- something in the tail beat the head: shift its index by one
        obtain ⟨qr, hqr⟩ := hl (t.get ⟨i, hi⟩) (List.mem_cons_of_mem h (t.get_mem i hi)) hhit
        refine Or.inr ⟨i + 1, Nat.succ_lt_succ hi, ?_, hhit, ?_, ?_, ?_⟩
        · rw [hfold]
          exact heq
        · -- the winner beats the original accumulator through the head
          show xlt (t.get ⟨i, hi⟩).distance b.distance = true
          have := xlt_trans_fin qr qh b.distance hb (by rwa [hqr, hq] at hxacc)
            (by rwa [hq] at hxb)
          rwa [hqr]
        · intro x hx hhit2
          show xlt x.distance (t.get ⟨i, hi⟩).distance = false
          rcases List.mem_cons.mp hx with hx | hx
          · rw [hx, hq, hqr]
            exact xlt_fin_asymm qr qh (by rwa [hqr, hq] at hxacc)
          · exact hmin x hx hhit2
        · intro j hj hj1 hhitj
          cases j with
          | zero =>
            show xlt (t.get ⟨i, hi⟩).distance h.distance = true
            exact hxacc
          | succ j =>
            show xlt (t.get ⟨i, hi⟩).distance
              (t.get ⟨j, Nat.lt_of_succ_lt_succ hj⟩).distance = true
            exact hfirst j (Nat.lt_of_succ_lt_succ hj) (by omega) hhitj
    · -- the head does not replace the accumulator
      have hstep : selStep b h = b := by
        simp only [selStep]
        rw [if_neg hg]
      rw [hstep] at hfold
      have hhx : h.hit = true → xlt h.distance b.distance = false := by
        intro hh
        cases hxv : xlt h.distance b.distance with
        | false => rfl
        | true => exact absurd (by simp [hh, hxv]) hg
      rcases ih b (fun x hx hhit => hl x (List.mem_cons_of_mem h hx) hhit) hb with
        ⟨heq, hall⟩ | ⟨i, hi, heq, hhit, hxacc, hmin, hfirst⟩
      · refine Or.inl ⟨by rw [hfold, heq], ?_⟩
        intro x hx hhit2
        rcases List.mem_cons.mp hx with hx | hx
        · rw [hx]
          refine hhx ?_
          rw [← hx]
          exact hhit2
        · exact hall x hx hhit2
      · obtain ⟨qr, hqr⟩ := hl (t.get ⟨i, hi⟩) (List.mem_cons_of_mem h (t.get_mem i hi)) hhit
        refine Or.inr ⟨i + 1, Nat.succ_lt_succ hi, ?_, hhit, hxacc, ?_, ?_⟩
        · rw [hfold]
          exact heq
        · intro x hx hhit2
          show xlt x.distance (t.get ⟨i, hi⟩).distance = false
          rcases List.mem_cons.mp hx with hx | hx
          · have hh2 : h.hit = true := by rw [← hx]; exact hhit2
            obtain ⟨qx, hqx⟩ := hl h (List.mem_cons_self h t) hh2
            rw [hx, hqx, hqr]
            refine xlt_none_of_beaten qx qr b.distance hb ?_ (by rwa [hqr] at hxacc)
            rw [← hqx]
            exact hhx hh2
          · exact hmin x hx hhit2
        · intro j hj hj1 hhitj
          cases j with
          | zero =>
            show xlt (t.get ⟨i, hi⟩).distance h.distance = true
            have hhith : h.hit = true := hhitj
            obtain ⟨qx, hqx⟩ := hl h (List.mem_cons_self h t) hhith
            rw [hqx, hqr]
            refine xlt_win_of_beaten qx qr b.distance hb ?_ (by rwa [hqr] at hxacc)
            rw [← hqx]
            exact hhx hhith
          | succ j =>
            show xlt (t.get ⟨i, hi⟩).distance
              (t.get ⟨j, Nat.lt_of_succ_lt_succ hj⟩).distance = true
            exact hfirst j (Nat.lt_of_succ_lt_succ hj) (by omega) hhitj


/-- C3: for every ray and scene (all of whose per-primitive hit
records carry finite distances, which excludes only degenerate
NaN-distance box records), findClosestIntersection returns the
per-primitive hit with the smallest distance over a linear scan of all
primitives; on an exact distance tie the primitive encountered first
in scene order is kept (the winner is strictly smaller than every hit
before it and not beaten by any hit anywhere); a record with the hit
flag false is never selected (a successful result is itself a listed
hit record with flag true); and when no primitive hits, the result is
the initial record with hit = false and distance = +infinity. -/
theorem c3_nearest_hit (M : MathFns) (scene : Scene) (ray : Ray)
    (hfin : ∀ o ∈ scene.objects, (Seq.intersectObject M ray o).hit = true →
      ∃ q, (Seq.intersectObject M ray o).distance = XQ.fin q) :
    ((∀ o ∈ scene.objects, (Seq.intersectObject M ray o).hit = false) →
      Seq.findClosestIntersection M scene ray = Seq.noHitBase)
    ∧ ((Seq.findClosestIntersection M scene ray).hit = false →
      Seq.findClosestIntersection M scene ray = Seq.noHitBase)
    ∧ ((Seq.findClosestIntersection M scene ray).hit = true →
      ∃ i : ℕ, ∃ hi : i < scene.objects.length,
        Seq.findClosestIntersection M scene ray
            = Seq.intersectObject M ray (scene.objects.get ⟨i, hi⟩)
        ∧ (Seq.intersectObject M ray (scene.objects.get ⟨i, hi⟩)).hit = true
        ∧ (∀ o ∈ scene.objects, (Seq.intersectObject M ray o).hit = true →
            xlt (Seq.intersectObject M ray o).distance
              (Seq.findClosestIntersection M scene ray).distance = false)
        ∧ (∀ j : ℕ, ∀ hj : j < scene.objects.length, j < i →
            (Seq.intersectObject M ray (scene.objects.get ⟨j, hj⟩)).hit = true →
            xlt (Seq.findClosestIntersection M scene ray).distance
              (Seq.intersectObject M ray (scene.objects.get ⟨j, hj⟩)).distance
                = true)) := by
  have hl : ∀ h ∈ scene.objects.map (Seq.intersectObject M ray),
      h.hit = true → ∃ q, h.distance = XQ.fin q := by
    intro h hh hhit
    obtain ⟨o, ho, rfl⟩ := List.mem_map.mp hh
    exact hfin o ho hhit
  have hb : Seq.noHitBase.distance = XQ.pinf
      ∨ ∃ q, Seq.noHitBase.distance = XQ.fin q := Or.inl rfl
  have hs := selFold_spec (scene.objects.map (Seq.intersectObject M ray))
    Seq.noHitBase hl hb
  refine ⟨?_, ?_, ?_⟩
  · intro hnone
    rcases hs with ⟨heq, _⟩ | ⟨i, hi, heq, hhit, _⟩
    · rw [findClosest_eq_fold]; exact heq
    · exfalso
      have hi2 : i < scene.objects.length := by simpa using hi
      have hgm : (scene.objects.map (Seq.intersectObject M ray)).get ⟨i, hi⟩
          = Seq.intersectObject M ray (scene.objects.get ⟨i, hi2⟩) := by simp
      rw [hgm] at hhit
      rw [hnone (scene.objects.get ⟨i, hi2⟩) (scene.objects.get_mem i hi2)] at hhit
      exact Bool.false_ne_true hhit
  · intro hfalse
    rcases hs with ⟨heq, _⟩ | ⟨i, hi, heq, hhit, _⟩
    · rw [findClosest_eq_fold]; exact heq
    · exfalso
      rw [findClosest_eq_fold, heq] at hfalse
      rw [hfalse] at hhit
      exact Bool.false_ne_true hhit
  · intro htrue
    rcases hs with ⟨heq, _⟩ | ⟨i, hi, heq, hhit, hxacc, hmin, hfirst⟩
    · exfalso
      rw [findClosest_eq_fold, heq] at htrue
      simp [Seq.noHitBase] at htrue
    · have hi2 : i < scene.objects.length := by simpa using hi
      have hgm : (scene.objects.map (Seq.intersectObject M ray)).get ⟨i, hi⟩
          = Seq.intersectObject M ray (scene.objects.get ⟨i, hi2⟩) := by simp
      refine ⟨i, hi2, ?_, ?_, ?_, ?_⟩
      · rw [findClosest_eq_fold, heq, hgm]
      · rw [← hgm]; exact hhit
      · intro o ho hhito
        have hmem : Seq.intersectObject M ray o
            ∈ scene.objects.map (Seq.intersectObject M ray) :=
          List.mem_map_of_mem _ ho
        have hres := hmin _ hmem hhito
        rw [findClosest_eq_fold, heq]
        exact hres
      · intro j hj hj1 hhitj
        have hjL : j < (scene.objects.map (Seq.intersectObject M ray)).length := by
          simpa using hj
        have hgmj : (scene.objects.map (Seq.intersectObject M ray)).get ⟨j, hjL⟩
            = Seq.intersectObject M ray (scene.objects.get ⟨j, hj⟩) := by simp
        have hres := hfirst j hjL hj1 (by rw [hgmj]; exact hhitj)
        rw [findClosest_eq_fold, heq, hgm]
        rw [hgm, hgmj] at hres
        exact hres

/-- Concrete diffuse red material for witnesses. -/
def mat1 : Material := { color := ⟨1, 0, 0⟩, reflectivity := 0, shininess := 10 }

/-- Unit sphere at the origin (the spec's own test primitive). -/
def sph1 : Sphere := { center := ⟨0, 0, 0⟩, radius := 1, material := mat1 }

/-- Ray from (0,0,5) toward (0,0,-1) (the spec's own test ray). -/
def ray1 : Ray := { origin := ⟨0, 0, 5⟩, direction := ⟨0, 0, -1⟩ }

/-- One-sphere one-light scene for witnesses. -/
def scene1 : Scene :=
  { camera := { position := ⟨0, 0, 5⟩, target := ⟨0, 0, 0⟩, fov := 60 },
    lights := [{ position := ⟨0, 3, 0⟩, color := ⟨1, 1, 1⟩, intensity := 1 }],
    objects := [SceneObject.sphere sph1],
    backgroundColor := ⟨0, 0, 0⟩ }

/-- Concrete evaluation: the test ray hits the unit sphere at distance
4 with hit point (0,0,1) and normal (0,0,1). -/
theorem sph1_hit_eval : Seq.intersectObject ratMath ray1 (SceneObject.sphere sph1)
    = { hit := true, distance := XQ.fin 4, point := ⟨0, 0, 1⟩,
        normal := ⟨0, 0, 1⟩, material := mat1 } := by
  norm_num [Seq.intersectObject, Seq.intersectSphere, ray1, sph1, mat1, ratMath,
    Vec3.subtract, Vec3.dot, Vec3.multiply, Vec3.add, Vec3.normalize, Vec3.length,
    ratSqrt_four, ratSqrt_one]

/-- Concrete evaluation: the nearest hit in scene1 along the test ray. -/
theorem scene1_closest_eval : Seq.findClosestIntersection ratMath scene1 ray1
    = { hit := true, distance := XQ.fin 4, point := ⟨0, 0, 1⟩,
        normal := ⟨0, 0, 1⟩, material := mat1 } := by
  norm_num [Seq.findClosestIntersection, scene1, sph1_hit_eval, Seq.noHitBase, xlt]

theorem c3_nearest_hit_witness :
    ∃ i : ℕ, ∃ hi : i < scene1.objects.length,
      Seq.findClosestIntersection ratMath scene1 ray1
        = Seq.intersectObject ratMath ray1 (scene1.objects.get ⟨i, hi⟩) := by
  have hfin : ∀ o ∈ scene1.objects,
      (Seq.intersectObject ratMath ray1 o).hit = true →
      ∃ q, (Seq.intersectObject ratMath ray1 o).distance = XQ.fin q := by
    intro o ho _
    have hone : o = SceneObject.sphere sph1 := by simpa [scene1] using ho
    subst hone
    exact ⟨4, by rw [sph1_hit_eval]⟩
  have hhit : (Seq.findClosestIntersection ratMath scene1 ray1).hit = true := by
    rw [scene1_closest_eval]
  obtain ⟨i, hi, heq, _⟩ :=
    (c3_nearest_hit ratMath scene1 ray1 hfin).2.2 hhit
  exact ⟨i, hi, heq⟩

theorem c2_buffer_contract_witness :
    (Seq.render ratMath scene0 1 1 1).length = 1 * 1 * 4
    ∧ (Seq.render ratMath scene0 1 1 1).getD ((0 * 1 + 0) * 4 + 3) 0 = 255 :=
  ⟨(c2_buffer_contract ratMath scene0 1 1 1 0 0 (by decide) (by decide)).1,
    (c2_buffer_contract ratMath scene0 1 1 1 0 0 (by decide) (by decide)).2.1⟩

/-- C4: traceRay with depth at most 0 returns black for every ray; a
ray that intersects no primitive returns the scene's background color
unmodified; a render at maxDepth 0 traces every pixel with depth 0 and
so includes no reflected contribution (it is black) for any
reflectivity value; and when the hit's reflectivity is not positive or
the remaining depth is not greater than 1, the result is exactly the
per-light direct-lighting sum with no reflection blend. -/
theorem c4_trace_depth (M : MathFns) (scene : Scene) (ray : Ray) (depth : ℤ) :
    (depth ≤ 0 → Seq.traceRay M scene ray depth = ⟨0, 0, 0⟩)
    ∧ Seq.traceRay M scene ray 0 = ⟨0, 0, 0⟩
    ∧ (0 < depth → (Seq.findClosestIntersection M scene ray).hit = false →
        Seq.traceRay M scene ray depth = scene.backgroundColor)
    ∧ (0 < depth → (Seq.findClosestIntersection M scene ray).hit = true →
        ¬(0 < (Seq.findClosestIntersection M scene ray).material.reflectivity
            ∧ 1 < depth) →
        Seq.traceRay M scene ray depth
          = scene.lights.foldl
              (fun c light =>
                let lightColor := Seq.calculateLighting M scene
                  (Seq.findClosestIntersection M scene ray) light ray
                ⟨c.r + lightColor.r, c.g + lightColor.g, c.b + lightColor.b⟩)
              ⟨0, 0, 0⟩) := by
  refine ⟨?_, ?_, ?_, ?_⟩
  · intro hle
    rw [Seq.traceRay, Int.toNat_of_nonpos hle]
    rfl
  · rfl
  · intro hpos hmiss
    have hn : depth.toNat = (depth.toNat - 1) + 1 := by omega
    rw [Seq.traceRay, hn, Seq.traceRayF]
    simp [hmiss]
  · intro hpos hhit hnorefl
    have hn : depth.toNat = (depth.toNat - 1) + 1 := by omega
    rw [Seq.traceRay, hn, Seq.traceRayF]
    have hcond : ¬(0 < (Seq.findClosestIntersection M scene ray).material.reflectivity
        ∧ 0 < depth.toNat - 1) := by
      intro ⟨h1, h2⟩
      exact hnorefl ⟨h1, by omega⟩
    simp only [hhit]
    simp [hcond]
    intro h1 h2
    exact absurd ⟨h1, h2⟩ hnorefl

theorem c4_trace_depth_witness :
    Seq.traceRay ratMath scene0 ray1 (-1) = ⟨0, 0, 0⟩
    ∧ Seq.traceRay ratMath scene0 ray1 0 = ⟨0, 0, 0⟩
    ∧ Seq.traceRay ratMath scene0 ray1 2 = scene0.backgroundColor
    ∧ Seq.traceRay ratMath scene1 ray1 2
        = scene1.lights.foldl
            (fun c light =>
              let lightColor := Seq.calculateLighting ratMath scene1
                (Seq.findClosestIntersection ratMath scene1 ray1) light ray1
              ⟨c.r + lightColor.r, c.g + lightColor.g, c.b + lightColor.b⟩)
            ⟨0, 0, 0⟩ :=
  ⟨(c4_trace_depth ratMath scene0 ray1 (-1)).1 (by norm_num),
    (c4_trace_depth ratMath scene0 ray1 0).2.1,
    (c4_trace_depth ratMath scene0 ray1 2).2.2.1 (by norm_num) rfl,
    (c4_trace_depth ratMath scene1 ray1 2).2.2.2 (by norm_num)
      (by rw [scene1_closest_eval]) (by rw [scene1_closest_eval]; norm_num [mat1])⟩

/-
  Named forms of the local variables of intersectSphere, for stating
  the root-selection claim.
-/

/-- The quadratic coefficient a = D.D of intersectSphere. -/
def sphA (ray : Ray) : ℚ := ray.direction.dot ray.direction

/-- The quadratic coefficient b = 2 oc.D of intersectSphere. -/
def sphB (ray : Ray) (s : Sphere) : ℚ :=
  2 * (ray.origin.subtract s.center).dot ray.direction

/-- The quadratic coefficient c = oc.oc - r^2 of intersectSphere. -/
def sphC (ray : Ray) (s : Sphere) : ℚ :=
  (ray.origin.subtract s.center).dot (ray.origin.subtract s.center)
    - s.radius * s.radius

/-- The discriminant b^2 - 4ac of intersectSphere. -/
def sphDisc (ray : Ray) (s : Sphere) : ℚ :=
  sphB ray s * sphB ray s - 4 * sphA ray * sphC ray s

/-- The smaller quadratic root (for nonnegative sqrt and positive a). -/
def sphT1 (M : MathFns) (ray : Ray) (s : Sphere) : ℚ :=
  (-sphB ray s - M.sqrt (sphDisc ray s)) / (2 * sphA ray)

/-- The larger quadratic root (for nonnegative sqrt and positive a). -/
def sphT2 (M : MathFns) (ray : Ray) (s : Sphere) : ℚ :=
  (-sphB ray s + M.sqrt (sphDisc ray s)) / (2 * sphA ray)

/-- The successful hit record intersectSphere builds at parameter t. -/
def sphHitRec (M : MathFns) (ray : Ray) (s : Sphere) (t : ℚ) : HitInfo :=
  { hit := true, distance := XQ.fin t,
    point := ray.origin.add (ray.direction.multiply t),
    normal := Vec3.normalize M
      ((ray.origin.add (ray.direction.multiply t)).subtract s.center),
    material := s.material }

theorem intersectSphere_cases (M : MathFns) (ray : Ray) (s : Sphere) :
    Seq.intersectSphere M ray s =
      if sphDisc ray s < 0 then Seq.noHitWith s.material
      else
        let t := if 1/1000 < sphT1 M ray s then sphT1 M ray s
          else (if 1/1000 < sphT2 M ray s then sphT2 M ray s else -1)
        if t < 1/1000 then Seq.noHitWith s.material
        else sphHitRec M ray s t := by
  simp only [Seq.intersectSphere, sphHitRec, sphDisc, sphT1, sphT2, sphA, sphB, sphC]

/-- C5: intersectSphere reports no hit when the discriminant is
negative; otherwise it selects the smaller root t1 when t1 exceeds the
epsilon 0.001, falls back to the larger root t2 when t1 fails the
epsilon test, and reports no hit when neither qualifies; t1 is indeed
the smaller root whenever the square root is nonnegative and a is
positive; a successful hit's normal is normalize(hitPoint - center);
and for the unit sphere at the origin and the ray from (0,0,5) with
direction (0,0,-1), under the IEEE-exact facts sqrt 4 = 2 and
sqrt 1 = 1, the hit distance is exactly 4, the hit point (0,0,1) and
the normal (0,0,1). -/
theorem c5_sphere_roots (M : MathFns) (ray : Ray) (sphere : Sphere) :
    (sphDisc ray sphere < 0 →
      Seq.intersectSphere M ray sphere = Seq.noHitWith sphere.material)
    ∧ (0 ≤ M.sqrt (sphDisc ray sphere) → 0 < sphA ray →
        sphT1 M ray sphere ≤ sphT2 M ray sphere)
    ∧ (¬sphDisc ray sphere < 0 → 1/1000 < sphT1 M ray sphere →
        Seq.intersectSphere M ray sphere
          = sphHitRec M ray sphere (sphT1 M ray sphere))
    ∧ (¬sphDisc ray sphere < 0 → ¬1/1000 < sphT1 M ray sphere →
        1/1000 < sphT2 M ray sphere →
        Seq.intersectSphere M ray sphere
          = sphHitRec M ray sphere (sphT2 M ray sphere))
    ∧ (¬sphDisc ray sphere < 0 → ¬1/1000 < sphT1 M ray sphere →
        ¬1/1000 < sphT2 M ray sphere →
        Seq.intersectSphere M ray sphere = Seq.noHitWith sphere.material)
    ∧ (M.sqrt 4 = 2 → M.sqrt 1 = 1 →
        Seq.intersectSphere M { origin := ⟨0, 0, 5⟩, direction := ⟨0, 0, -1⟩ }
            { center := ⟨0, 0, 0⟩, radius := 1, material := sphere.material }
          = { hit := true, distance := XQ.fin 4, point := ⟨0, 0, 1⟩,
              normal := ⟨0, 0, 1⟩, material := sphere.material }) := by
  refine ⟨?_, ?_, ?_, ?_, ?_, ?_⟩
  · intro hneg
    rw [intersectSphere_cases, if_pos hneg]
  · intro hs ha
    rw [sphT1, sphT2]
    gcongr <;> linarith
  · intro hnn h1
    rw [intersectSphere_cases, if_neg hnn]
    simp only [if_pos h1]
    rw [if_neg (by linarith)]
  · intro hnn h1 h2
    rw [intersectSphere_cases, if_neg hnn]
    simp only [if_neg h1, if_pos h2]
    rw [if_neg (by linarith)]
  · intro hnn h1 h2
    rw [intersectSphere_cases, if_neg hnn]
    simp only [if_neg h1, if_neg h2]
    rw [if_pos (by norm_num)]
  · intro h4 h1
    norm_num [Seq.intersectSphere, Vec3.subtract, Vec3.dot, Vec3.multiply, Vec3.add,
      Vec3.normalize, Vec3.length, h4, h1]

theorem c5_sphere_roots_witness :
    ((0 : ℚ) ≤ ratMath.sqrt (sphDisc ray1 sph1) → 0 < sphA ray1 →
      sphT1 ratMath ray1 sph1 ≤ sphT2 ratMath ray1 sph1)
    ∧ Seq.intersectSphere ratMath { origin := ⟨0, 0, 5⟩, direction := ⟨0, 0, -1⟩ }
        { center := ⟨0, 0, 0⟩, radius := 1, material := mat1 }
      = { hit := true, distance := XQ.fin 4, point := ⟨0, 0, 1⟩,
          normal := ⟨0, 0, 1⟩, material := mat1 } :=
  ⟨(c5_sphere_roots ratMath ray1 sph1).2.1,
    (c5_sphere_roots ratMath ray1 sph1).2.2.2.2.2
      (by rw [show ratMath.sqrt = ratSqrt from rfl, ratSqrt_four])
      (by rw [show ratMath.sqrt = ratSqrt from rfl, ratSqrt_one])⟩

/-
  Named forms of the local values of calculateLighting, for stating
  the shadow/shading claim.
-/

/-- The shadow ray calculateLighting builds: origin offset from the
hit point along the stored normal by epsilon 0.001, direction the unit
vector toward the light. -/
def shadowRayOf (M : MathFns) (hit : HitInfo) (light : Light) : Ray :=
  { origin := hit.point.add (hit.normal.multiply (1/1000)),
    direction := Vec3.normalize M (light.position.subtract hit.point) }

/-- The distance from the (unoffset) hit point to the light. -/
def lightDistance (M : MathFns) (hit : HitInfo) (light : Light) : ℚ :=
  (light.position.subtract hit.point).length M

/-- The unshadowed single-light contribution:
(albedo*diffuse + specular) * lightColor * lightIntensity * attenuation,
with attenuation 1 / (1 + 0.1 d + 0.01 d^2). -/
def lightContribution (M : MathFns) (hit : HitInfo) (light : Light)
    (ray : Ray) : Color :=
  let lightDir := Vec3.normalize M (light.position.subtract hit.point)
  let distance := lightDistance M hit light
  let diffuse := max 0 (hit.normal.dot lightDir)
  let attenuation := 1 / (1 + (1/10) * distance + (1/100) * distance * distance)
  let viewDir := Vec3.normalize M (ray.direction.multiply (-1))
  let reflectDir := Vec3.normalize M ((lightDir.multiply (-1)).reflect hit.normal)
  let specular := M.pow (max 0 (viewDir.dot reflectDir)) hit.material.shininess
  let intensity := light.intensity * attenuation
  { r := (hit.material.color.r * diffuse + specular) * light.color.r * intensity,
    g := (hit.material.color.g * diffuse + specular) * light.color.g * intensity,
    b := (hit.material.color.b * diffuse + specular) * light.color.b * intensity }

/-- The channel-wise accumulation of per-light contributions that
traceRay performs over a list of lights. -/
def lightSum (M : MathFns) (scene : Scene) (hitRec : HitInfo) (ray : Ray)
    (ls : List Light) : Color :=
  ls.foldl
    (fun c light =>
      let lightColor := Seq.calculateLighting M scene hitRec light ray
      ⟨c.r + lightColor.r, c.g + lightColor.g, c.b + lightColor.b⟩)
    ⟨0, 0, 0⟩

theorem lightSum_shift (M : MathFns) (scene : Scene) (hr : HitInfo) (ray : Ray) :
    ∀ (ls : List Light) (c : Color),
      ls.foldl
        (fun c light =>
          let lightColor := Seq.calculateLighting M scene hr light ray
          (⟨c.r + lightColor.r, c.g + lightColor.g, c.b + lightColor.b⟩ : Color)) c
      = ⟨c.r + (lightSum M scene hr ray ls).r,
         c.g + (lightSum M scene hr ray ls).g,
         c.b + (lightSum M scene hr ray ls).b⟩ := by
  intro ls
  induction ls with
  | nil =>
    intro c
    simp [lightSum]
  | cons l ls ih =>
    intro c
    have hsum : lightSum M scene hr ray (l :: ls)
        = ⟨(Seq.calculateLighting M scene hr l ray).r
              + (lightSum M scene hr ray ls).r,
           (Seq.calculateLighting M scene hr l ray).g
              + (lightSum M scene hr ray ls).g,
           (Seq.calculateLighting M scene hr l ray).b
              + (lightSum M scene hr ray ls).b⟩ := by
      show (l :: ls).foldl _ (⟨0, 0, 0⟩ : Color) = _
      rw [List.foldl_cons, ih]
      simp
    rw [List.foldl_cons, ih, hsum]
    simp only [Color.mk.injEq]
    refine ⟨by ring, by ring, by ring⟩

/-- C6: for every shaded hit record and light, if the scene's nearest
intersection along the shadow ray (origin the hit point offset along
the normal by 0.001, direction the unit vector toward the light) has
its hit flag set and lies strictly closer than the light, then
calculateLighting returns exactly (0,0,0); otherwise it returns
(albedo*diffuse + specular) * lightColor * lightIntensity *
attenuation with attenuation 1/(1 + 0.1 d + 0.01 d^2); traceRay
accumulates exactly these per-light values channel-wise, and the
accumulated contribution of a concatenation of light lists is the
channel-wise sum of the two accumulations. -/
theorem c6_lighting_shadow (M : MathFns) (scene : Scene) (hit : HitInfo)
    (light : Light) (ray : Ray) :
    ((Seq.findClosestIntersection M scene (shadowRayOf M hit light)).hit = true →
      xlt (Seq.findClosestIntersection M scene (shadowRayOf M hit light)).distance
        (XQ.fin (lightDistance M hit light)) = true →
      Seq.calculateLighting M scene hit light ray = ⟨0, 0, 0⟩)
    ∧ (((Seq.findClosestIntersection M scene (shadowRayOf M hit light)).hit
          && xlt (Seq.findClosestIntersection M scene (shadowRayOf M hit light)).distance
              (XQ.fin (lightDistance M hit light))) = false →
        Seq.calculateLighting M scene hit light ray
          = lightContribution M hit light ray)
    ∧ (∀ n : ℕ, (Seq.findClosestIntersection M scene ray).hit = true →
        ¬(0 < (Seq.findClosestIntersection M scene ray).material.reflectivity
            ∧ 0 < n) →
        Seq.traceRayF M scene (n + 1) ray
          = lightSum M scene (Seq.findClosestIntersection M scene ray) ray
              scene.lights)
    ∧ (∀ (hr : HitInfo) (l1 l2 : List Light),
        (lightSum M scene hr ray (l1 ++ l2)).r
            = (lightSum M scene hr ray l1).r + (lightSum M scene hr ray l2).r
        ∧ (lightSum M scene hr ray (l1 ++ l2)).g
            = (lightSum M scene hr ray l1).g + (lightSum M scene hr ray l2).g
        ∧ (lightSum M scene hr ray (l1 ++ l2)).b
            = (lightSum M scene hr ray l1).b + (lightSum M scene hr ray l2).b) := by
  refine ⟨?_, ?_, ?_, ?_⟩
  · intro hsh hlt
    have hcond : ((Seq.findClosestIntersection M scene (shadowRayOf M hit light)).hit
        && xlt (Seq.findClosestIntersection M scene (shadowRayOf M hit light)).distance
            (XQ.fin (lightDistance M hit light))) = true := by
      rw [hsh, hlt]
      rfl
    simp only [shadowRayOf, lightDistance] at hcond
    simp only [Seq.calculateLighting]
    rw [hcond]
    simp
  · intro hna
    simp only [shadowRayOf, lightDistance] at hna
    simp only [Seq.calculateLighting, lightContribution, lightDistance]
    rw [hna]
    simp
  · intro n hhit hnr
    rw [Seq.traceRayF]
    simp [hhit, hnr, lightSum]
  · intro hr l1 l2
    have happ : lightSum M scene hr ray (l1 ++ l2)
        = ⟨(lightSum M scene hr ray l1).r + (lightSum M scene hr ray l2).r,
           (lightSum M scene hr ray l1).g + (lightSum M scene hr ray l2).g,
           (lightSum M scene hr ray l1).b + (lightSum M scene hr ray l2).b⟩ := by
      show (l1 ++ l2).foldl _ (⟨0, 0, 0⟩ : Color) = _
      rw [List.foldl_append]
      have hbase : l1.foldl
          (fun c light =>
            let lightColor := Seq.calculateLighting M scene hr light ray
            (⟨c.r + lightColor.r, c.g + lightColor.g, c.b + lightColor.b⟩ : Color))
          ⟨0, 0, 0⟩ = lightSum M scene hr ray l1 := rfl
      rw [hbase, lightSum_shift]
    rw [happ]
    exact ⟨rfl, rfl, rfl⟩

/-- Point light straight above the origin for the shadow witness. -/
def lightY : Light := { position := ⟨0, 3, 0⟩, color := ⟨1, 1, 1⟩, intensity := 1 }

/-- Occluding unit sphere between the shaded point and the light. -/
def occSphere : Sphere := { center := ⟨0, 2, 0⟩, radius := 1, material := mat1 }

/-- Scene whose only object blocks lightY from the origin. -/
def sceneSh : Scene :=
  { camera := { position := ⟨0, 0, 5⟩, target := ⟨0, 0, 4⟩, fov := 90 },
    lights := [lightY],
    objects := [SceneObject.sphere occSphere],
    backgroundColor := ⟨0, 0, 0⟩ }

/-- A shaded hit at the origin with upward normal. -/
def hitR : HitInfo :=
  { hit := true, distance := XQ.fin 1, point := ⟨0, 0, 0⟩, normal := ⟨0, 1, 0⟩,
    material := mat1 }

theorem shadowRay_eval : shadowRayOf ratMath hitR lightY
    = { origin := ⟨0, 1/1000, 0⟩, direction := ⟨0, 1, 0⟩ } := by
  norm_num [shadowRayOf, hitR, lightY, Vec3.add, Vec3.multiply, Vec3.subtract,
    Vec3.normalize, Vec3.length, ratMath, ratSqrt_nine]

theorem occ_closest_eval :
    Seq.findClosestIntersection ratMath sceneSh
        { origin := ⟨0, 1/1000, 0⟩, direction := ⟨0, 1, 0⟩ }
      = { hit := true, distance := XQ.fin (999/1000), point := ⟨0, 1, 0⟩,
          normal := ⟨0, -1, 0⟩, material := mat1 } := by
  norm_num [Seq.findClosestIntersection, sceneSh, Seq.intersectObject,
    Seq.intersectSphere, occSphere, mat1, ratMath, Vec3.subtract, Vec3.dot,
    Vec3.multiply, Vec3.add, Vec3.normalize, Vec3.length, ratSqrt_four,
    ratSqrt_one, Seq.noHitBase, xlt]

theorem c6_lighting_shadow_witness :
    Seq.calculateLighting ratMath sceneSh hitR lightY ray1 = ⟨0, 0, 0⟩ := by
  have hd : lightDistance ratMath hitR lightY = 3 := by
    norm_num [lightDistance, hitR, lightY, Vec3.subtract, Vec3.length, ratMath,
      ratSqrt_nine]
  have h1 : (Seq.findClosestIntersection ratMath sceneSh
      (shadowRayOf ratMath hitR lightY)).hit = true := by
    rw [shadowRay_eval, occ_closest_eval]
  have h2 : xlt (Seq.findClosestIntersection ratMath sceneSh
        (shadowRayOf ratMath hitR lightY)).distance
      (XQ.fin (lightDistance ratMath hitR lightY)) = true := by
    rw [shadowRay_eval, occ_closest_eval, hd]
    norm_num [xlt]
  exact (c6_lighting_shadow ratMath sceneSh hitR lightY ray1).1 h1 h2

/-- The box-face normal selection exactly as claim C7 words it: the
hit-point offset from the box center, measured relative to the box's
half-extents (max - min)/2, must exceed the bias 1.0001, axes in
x, y, z order, falling back to the x-axis with the sign of the
x-offset. -/
def boxNormalClaimed (hp mn mx : Vec3) : Vec3 :=
  let bias : ℚ := 10001/10000
  let center := (mn.add mx).multiply (1/2)
  let p := hp.subtract center
  let h := (mx.subtract mn).multiply (1/2)
  if bias < |p.x / h.x| then ⟨qsign p.x, 0, 0⟩
  else if bias < |p.y / h.y| then ⟨0, qsign p.y, 0⟩
  else if bias < |p.z / h.z| then ⟨0, 0, qsign p.z⟩
  else ⟨qsign p.x, 0, 0⟩

/-- Ray pointing straight down at the top face of the test box. -/
def rayTop : Ray := { origin := ⟨0, 5, 0⟩, direction := ⟨0, -1, 0⟩ }

/-- The axis-aligned cube from (-1,-1,-1) to (1,1,1). -/
def bx1 : Box := { min := ⟨-1, -1, -1⟩, max := ⟨1, 1, 1⟩, material := mat1 }

/-- Concrete evaluation: the downward ray hits the cube's top face at
(0,1,0) with distance 4; the code's selection returns normal (0,1,0). -/
theorem boxTop_eval : Seq.intersectBox ratMath rayTop bx1
    = { hit := true, distance := XQ.fin 4, point := ⟨0, 1, 0⟩,
        normal := ⟨0, 1, 0⟩, material := mat1 } := by
  norm_num [Seq.intersectBox, rayTop, bx1, mat1, xdiv, xmul, xmin, xmax, xlt,
    xabs, XQ.toQ, Seq.boxNormalOf, qsign, Vec3.subtract, Vec3.add, Vec3.multiply]

/-- C7 counterexample: for the downward ray hitting the cube's top
face at (0,1,0), the code returns normal (0,1,0), while the selection
the claim describes (offset relative to the half-extents, which is
exactly 1 on a face and so never exceeds 1.0001) falls back to the
x-axis and yields the zero vector sign(0) = 0: the claim's normal
disagrees with the code's. -/
theorem c7_box_normal_counterexample :
    (Seq.intersectBox ratMath rayTop bx1).hit = true
    ∧ (Seq.intersectBox ratMath rayTop bx1).normal = ⟨0, 1, 0⟩
    ∧ boxNormalClaimed (Seq.intersectBox ratMath rayTop bx1).point bx1.min bx1.max
        = ⟨0, 0, 0⟩
    ∧ (Seq.intersectBox ratMath rayTop bx1).normal
        ≠ boxNormalClaimed (Seq.intersectBox ratMath rayTop bx1).point
            bx1.min bx1.max := by
  rw [boxTop_eval]
  refine ⟨rfl, rfl, ?_, ?_⟩
  · norm_num [boxNormalClaimed, bx1, qsign, Vec3.subtract, Vec3.add, Vec3.multiply]
  · norm_num [boxNormalClaimed, bx1, qsign, Vec3.subtract, Vec3.add, Vec3.multiply,
      Vec3.mk.injEq]

/-- C7 amended: for every ray that intersectBox reports as a hit, the
returned surface normal is the signed unit axis vector of the first
axis (x, y, z order) whose hit-point offset from the box center,
divided by d = (min - center) * 0.5 (minus one quarter of the box
extent, i.e. half of the half-extent, as the code computes it, with
IEEE division semantics for degenerate extents), exceeds the bias
1.0001 in absolute value; when no axis qualifies the normal falls back
to the x-axis carrying Math.sign of the x-offset (which is the zero
vector when that offset is zero). -/
theorem c7_box_normal_amended (M : MathFns) (ray : Ray) (box : Box)
    (hhit : (Seq.intersectBox M ray box).hit = true) :
    (Seq.intersectBox M ray box).normal
      = Seq.boxNormalOf
          ((Seq.intersectBox M ray box).point.subtract
            ((box.min.add box.max).multiply (1/2)))
          ((box.min.subtract ((box.min.add box.max).multiply (1/2))).multiply
            (1/2)) := by
  simp only [Seq.intersectBox] at hhit ⊢
  split at hhit
  · exact absurd hhit (by simp [Seq.noHitWith])
  · split
    · simp_all
    · rfl

theorem c7_box_normal_amended_witness :
    (Seq.intersectBox ratMath rayTop bx1).normal
      = Seq.boxNormalOf
          ((Seq.intersectBox ratMath rayTop bx1).point.subtract
            ((bx1.min.add bx1.max).multiply (1/2)))
          ((bx1.min.subtract ((bx1.min.add bx1.max).multiply (1/2))).multiply
            (1/2)) :=
  c7_box_normal_amended ratMath rayTop bx1 (by rw [boxTop_eval])

/-- Normalizing the zero vector gives the zero vector (both through
the explicit guard when the oracle maps sqrt 0 to 0, and through the
componentwise division 0/L otherwise). -/
theorem vecNormalize_zero (M : MathFns) : Vec3.normalize M ⟨0, 0, 0⟩ = ⟨0, 0, 0⟩ := by
  rw [Vec3.normalize]
  split_ifs with h
  · rfl
  · simp

/-- Camera looking straight up: forward parallel to world-up. -/
def camDeg : Camera := { position := ⟨0, 0, 0⟩, target := ⟨0, 1, 0⟩, fov := 90 }

/-- Scene carrying the degenerate camera. -/
def sceneDeg : Scene :=
  { camera := camDeg, lights := [], objects := [], backgroundColor := ⟨0, 0, 0⟩ }

/-- C8 counterexample: with forward parallel to world-up, getRay does
not yield a zero ray direction: for the camera at the origin looking
at (0,1,0) the pixel (0,0) ray direction is (0,1,0), the normalized
forward vector, which is not the zero vector.  (The right basis vector
is the one that degenerates to zero.) -/
theorem c8_zero_direction_counterexample :
    (Seq.getRay ratMath sceneDeg 2 2 0 0).direction = ⟨0, 1, 0⟩
    ∧ (Seq.getRay ratMath sceneDeg 2 2 0 0).direction ≠ ⟨0, 0, 0⟩ := by
  have h : (Seq.getRay ratMath sceneDeg 2 2 0 0).direction = ⟨0, 1, 0⟩ := by
    norm_num [Seq.getRay, Seq.camForward, Seq.camRight, Seq.camUp, sceneDeg,
      camDeg, ratMath, Vec3.subtract, Vec3.normalize, Vec3.length, Vec3.cross,
      Vec3.add, Vec3.multiply, ratSqrt_one, ratSqrt_zero]
  refine ⟨h, ?_⟩
  rw [h]
  simp [Vec3.mk.injEq]

/-- C8 amended: for every camera whose forward vector (target -
position) is parallel to world-up (0,1,0) (zero x and z components),
getRay raises no error and silently yields a degenerate but nonzero
result: the right basis vector has zero length so its normalization is
the zero vector, the pixel offsets therefore vanish, and every pixel's
ray direction equals the normalized forward vector, the same ray for
all pixels. -/
theorem c8_degenerate_camera_amended (M : MathFns) (scene : Scene)
    (width height x y x2 y2 : ℕ)
    (hx : (scene.camera.target.subtract scene.camera.position).x = 0)
    (hz : (scene.camera.target.subtract scene.camera.position).z = 0) :
    Seq.camRight M scene.camera = ⟨0, 0, 0⟩
    ∧ (Seq.getRay M scene width height x y).direction
        = Vec3.normalize M (Seq.camForward M scene.camera)
    ∧ Seq.getRay M scene width height x y = Seq.getRay M scene width height x2 y2 := by
  have hfx : (Seq.camForward M scene.camera).x = 0
      ∧ (Seq.camForward M scene.camera).z = 0 := by
    rw [Seq.camForward, Vec3.normalize]
    split_ifs
    · exact ⟨rfl, rfl⟩
    · simp [hx, hz]
  have hcross : (Seq.camForward M scene.camera).cross ⟨0, 1, 0⟩ = ⟨0, 0, 0⟩ := by
    obtain ⟨h1, h2⟩ := hfx
    rw [Vec3.cross]
    simp [h1, h2]
  have hright : Seq.camRight M scene.camera = ⟨0, 0, 0⟩ := by
    rw [Seq.camRight, hcross]
    exact vecNormalize_zero M
  have hup : Seq.camUp M scene.camera = ⟨0, 0, 0⟩ := by
    rw [Seq.camUp, hright]
    have hc : (⟨0, 0, 0⟩ : Vec3).cross (Seq.camForward M scene.camera)
        = ⟨0, 0, 0⟩ := by
      rw [Vec3.cross]
      simp
    rw [hc]
    exact vecNormalize_zero M
  have hray : ∀ px py : ℕ, Seq.getRay M scene width height px py
      = { origin := scene.camera.position,
          direction := Vec3.normalize M (Seq.camForward M scene.camera) } := by
    intro px py
    simp only [Seq.getRay]
    rw [hright, hup]
    simp [Vec3.multiply, Vec3.add]
  exact ⟨hright, by rw [hray x y], (hray x y).trans (hray x2 y2).symm⟩

theorem c8_degenerate_camera_amended_witness :
    Seq.camRight ratMath sceneDeg.camera = ⟨0, 0, 0⟩
    ∧ Seq.getRay ratMath sceneDeg 2 2 0 0 = Seq.getRay ratMath sceneDeg 2 2 1 1 :=
  ⟨(c8_degenerate_camera_amended ratMath sceneDeg 2 2 0 0 1 1
      (by norm_num [sceneDeg, camDeg, Vec3.subtract])
      (by norm_num [sceneDeg, camDeg, Vec3.subtract])).1,
    (c8_degenerate_camera_amended ratMath sceneDeg 2 2 0 0 1 1
      (by norm_num [sceneDeg, camDeg, Vec3.subtract])
      (by norm_num [sceneDeg, camDeg, Vec3.subtract])).2.2⟩

/-
  Congruence of the pipeline under removal of an unknown-tag object.
-/

theorem findClosest_drop_other (M : MathFns) (scene : Scene)
    (l1 l2 : List SceneObject) (tag : String) (ray : Ray) :
    Seq.findClosestIntersection M
        { scene with objects := l1 ++ SceneObject.other tag :: l2 } ray
      = Seq.findClosestIntersection M { scene with objects := l1 ++ l2 } ray := by
  simp only [Seq.findClosestIntersection]
  rw [List.foldl_append, List.foldl_cons, List.foldl_append]
  congr 1

theorem calcLighting_drop_other (M : MathFns) (scene : Scene)
    (l1 l2 : List SceneObject) (tag : String) (hit : HitInfo) (light : Light)
    (ray : Ray) :
    Seq.calculateLighting M
        { scene with objects := l1 ++ SceneObject.other tag :: l2 } hit light ray
      = Seq.calculateLighting M { scene with objects := l1 ++ l2 } hit light ray := by
  simp only [Seq.calculateLighting]
  rw [findClosest_drop_other]

theorem traceRayF_drop_other (M : MathFns) (scene : Scene)
    (l1 l2 : List SceneObject) (tag : String) :
    ∀ (n : ℕ) (ray : Ray),
      Seq.traceRayF M { scene with objects := l1 ++ SceneObject.other tag :: l2 } n ray
        = Seq.traceRayF M { scene with objects := l1 ++ l2 } n ray := by
  intro n
  induction n with
  | zero => intro ray; rfl
  | succ n ih =>
    intro ray
    have hl : ({ scene with objects := l1 ++ SceneObject.other tag :: l2 } : Scene).lights
        = scene.lights := rfl
    have hl2 : ({ scene with objects := l1 ++ l2 } : Scene).lights = scene.lights := rfl
    have hb : ({ scene with objects := l1 ++ SceneObject.other tag :: l2 } : Scene).backgroundColor
        = scene.backgroundColor := rfl
    have hb2 : ({ scene with objects := l1 ++ l2 } : Scene).backgroundColor
        = scene.backgroundColor := rfl
    rw [Seq.traceRayF, Seq.traceRayF, findClosest_drop_other]
    simp only [hl, hl2, hb, hb2, calcLighting_drop_other, ih]

theorem traceRay_drop_other (M : MathFns) (scene : Scene)
    (l1 l2 : List SceneObject) (tag : String) (ray : Ray) (depth : ℤ) :
    Seq.traceRay M { scene with objects := l1 ++ SceneObject.other tag :: l2 } ray depth
      = Seq.traceRay M { scene with objects := l1 ++ l2 } ray depth :=
  traceRayF_drop_other M scene l1 l2 tag depth.toNat ray

theorem pixelBytes_drop_other (M : MathFns) (scene : Scene)
    (l1 l2 : List SceneObject) (tag : String) (width height : ℕ) (maxDepth : ℤ)
    (x y : ℕ) :
    Seq.pixelBytes M { scene with objects := l1 ++ SceneObject.other tag :: l2 }
        width height maxDepth x y
      = Seq.pixelBytes M { scene with objects := l1 ++ l2 }
          width height maxDepth x y := by
  simp only [Seq.pixelBytes]
  rw [show Seq.getRay M { scene with objects := l1 ++ SceneObject.other tag :: l2 }
      width height x y
    = Seq.getRay M { scene with objects := l1 ++ l2 } width height x y from rfl]
  rw [traceRay_drop_other]

/-- C9: intersectObject on a scene object whose type tag is none of
sphere/plane/triangle/box returns the not-found record (hit flag
false, distance +infinity) without raising any error (it is a total
function), and a scene containing such an object renders exactly as
the same scene with the object absent: the nearest-hit scan, the full
trace and the rendered pixel buffer are unchanged. -/
theorem c9_unknown_primitive (M : MathFns) (scene : Scene)
    (l1 l2 : List SceneObject) (tag : String) (ray : Ray) (n : ℕ)
    (width height : ℕ) (maxDepth : ℤ) :
    Seq.intersectObject M ray (SceneObject.other tag) = Seq.noHitBase
    ∧ Seq.noHitBase.hit = false ∧ Seq.noHitBase.distance = XQ.pinf
    ∧ Seq.findClosestIntersection M
        { scene with objects := l1 ++ SceneObject.other tag :: l2 } ray
      = Seq.findClosestIntersection M { scene with objects := l1 ++ l2 } ray
    ∧ Seq.traceRayF M { scene with objects := l1 ++ SceneObject.other tag :: l2 } n ray
      = Seq.traceRayF M { scene with objects := l1 ++ l2 } n ray
    ∧ Seq.render M { scene with objects := l1 ++ SceneObject.other tag :: l2 }
        width height maxDepth
      = Seq.render M { scene with objects := l1 ++ l2 } width height maxDepth := by
  refine ⟨rfl, rfl, rfl, findClosest_drop_other M scene l1 l2 tag ray,
    traceRayF_drop_other M scene l1 l2 tag n ray, ?_⟩
  simp only [Seq.render, pixelBytes_drop_other]

/-- C10: normalize applied to the zero vector returns the zero vector
rather than failing, dividing by zero or producing undefined values;
more generally any vector whose computed Euclidean length is zero
yields the zero vector, and every vector of nonzero length is divided
componentwise by its Euclidean length. -/
theorem c10_normalize_contract (M : MathFns) (v : Vec3) :
    Vec3.normalize M ⟨0, 0, 0⟩ = ⟨0, 0, 0⟩
    ∧ (Vec3.length M v = 0 → Vec3.normalize M v = ⟨0, 0, 0⟩)
    ∧ (Vec3.length M v ≠ 0 →
        Vec3.normalize M v
          = ⟨v.x / Vec3.length M v, v.y / Vec3.length M v,
             v.z / Vec3.length M v⟩) := by
  refine ⟨vecNormalize_zero M, ?_, ?_⟩
  · intro h
    rw [Vec3.normalize]
    simp [h]
  · intro h
    rw [Vec3.normalize]
    simp [h]

theorem c10_normalize_contract_witness :
    Vec3.normalize ratMath ⟨0, 0, 0⟩ = ⟨0, 0, 0⟩
    ∧ Vec3.normalize ratMath ⟨3, 4, 0⟩ = ⟨3/5, 4/5, 0⟩ := by
  have hl : Vec3.length ratMath ⟨3, 4, 0⟩ = 5 := by
    norm_num [Vec3.length, ratMath, ratSqrt_25]
  refine ⟨(c10_normalize_contract ratMath ⟨0, 0, 0⟩).1, ?_⟩
  have h := (c10_normalize_contract ratMath ⟨3, 4, 0⟩).2.2 (by rw [hl]; norm_num)
  rw [h, hl]
  norm_num
